import Mathlib

/-!
StrongType (safe_cpp, chapter 2_Safe_Cpp)

A shallow embedding of the `StrongType` class template of
`Solutions/2_Safe_Cpp/StrongType_Cpp20.cpp`, `StrongType_Cpp17.cpp`,
`StrongType_Assembly.cpp` and `Tasks/2_Safe_Cpp/StrongType2.cpp`, instantiated at signed
integral value types, and of the `Meter` class (`Meter_Cpp20.cpp`, `Meter_Assembly.cpp`),
the country loops (`Ranges_constexpr.cpp`, `Tasks/2_Safe_Cpp/AddressSanitizer.cpp`),
`Erase.cpp`, `Tasks/2_Safe_Cpp/UniquePtr_constexpr.cpp` and `Tasks/2_Safe_Cpp/ToInt.cpp`.

Conventions of the embedding.

* A value of a signed integral type `T` is an `Int`; `representable bits x` says that `x`
  fits the two's-complement range of a `bits`-wide type (`int` is 32 bits wide, `long` 64).
* Built-in `+` and `-` on `T` give the mathematical result when it is representable.
  Signed overflow is undefined behaviour in C++: the embedding reports it as
  `Failure.undefined` and assigns it no value.
* A constructor either produces an object or throws: `Except Failure (StrongType I)`.
* A member function that writes to `*this` returns an `Outcome`: the state of the object
  when the call is left, either by `return` or by an exception.
* A conversion `static_cast<T>( m )` from `unsigned long long` is modular
  (`static_cast_signed`); an exception that meets a `noexcept` boundary ends the program
  (`Failure.terminate` for the operators of the skills, `NoexceptOutcome.terminate` for the
  literal operators).
* The skills of an instantiation are a list; the compile-time probe
  `requires { this->checkValue(value_); }` (C++20) or
  `is_detected_v< hasCheckValue, StrongType, T >` (C++17) is true exactly when the
  `Positive` skill is in that list.
-/

namespace SafeCpp

/-! ## Outcomes -/

/-- Ways in which the evaluation of an expression ends without a value. -/
inductive Failure where
  /-- The exception `std::invalid_argument( what )` was thrown. -/
  | invalid_argument (what : String)
  /-- The evaluation has undefined behaviour (signed overflow). -/
  | undefined
  /-- The exception `std::invalid_argument( what )` reached the boundary of a function declared
  `noexcept`: `std::terminate()` is called and the program ends. -/
  | terminate (what : String)
  deriving DecidableEq, Repr

/-- The specification `noexcept( true )` around a function body with result `r`: an exception
that would leave the body ends the program. For the operators of the skills the specification
is `noexcept( noexcept( lhs.get() + rhs.get() ) )`, and the built-in operation of an integral
`T` cannot throw, so it is `noexcept( true )`. -/
def noexcept_true {α : Type} (r : Except Failure α) : Except Failure α :=
  match r with
  | .error (.invalid_argument what) => .error (.terminate what)
  | other => other

/-- How a call of a mutating member function on an object of state type `σ` ends. -/
inductive Outcome (σ : Type) where
  /-- The call returned; `s` is the object afterwards. -/
  | returned (s : σ)
  /-- The exception `std::invalid_argument( what )` left the call; `s` is the object then. -/
  | threw (what : String) (s : σ)
  /-- The call has undefined behaviour. -/
  | undefined
  deriving DecidableEq, Repr

/-! ## The underlying signed integral type -/

/-- The value `x` fits a two's-complement signed integer of width `bits`. -/
def representable (bits : Nat) (x : Int) : Prop :=
  -(2 : Int) ^ (bits - 1) ≤ x ∧ x < (2 : Int) ^ (bits - 1)

instance (bits : Nat) (x : Int) : Decidable (representable bits x) :=
  inferInstanceAs (Decidable (-(2 : Int) ^ (bits - 1) ≤ x ∧ x < (2 : Int) ^ (bits - 1)))

/-- Built-in `a + b` on a signed integral type of width `bits`. -/
def T_add (bits : Nat) (a b : Int) : Except Failure Int :=
  if representable bits (a + b) then .ok (a + b) else .error .undefined

/-- Built-in `a - b` on a signed integral type of width `bits`. -/
def T_sub (bits : Nat) (a b : Int) : Except Failure Int :=
  if representable bits (a - b) then .ok (a - b) else .error .undefined

/-! ## Instantiations -/

/-- The phantom tags of the sources (`struct MeterTag`, `struct KilometerTag`). -/
inductive Tag where
  | MeterTag
  | KilometerTag
  deriving DecidableEq, Repr

/-- The skill templates that the sources pass to `StrongType`. -/
inductive Skill where
  | IntegralArithmetic
  | Printable
  | EqualityComparable
  | Positive
  deriving DecidableEq, Repr

/-- An instantiation `StrongType<T,Tag,Skills...>` with `T` a signed integral type. -/
structure Inst where
  /-- Width of `T` in bits. -/
  bits : Nat
  tag : Tag
  skills : List Skill
  deriving DecidableEq, Repr

/-- The probe for a `checkValue` member: only `Positive` declares one. -/
def Inst.hasCheckValue (I : Inst) : Bool :=
  decide (Skill.Positive ∈ I.skills)

/-- Alias template `Meter<T>`:
`StrongType<T,struct MeterTag,IntegralArithmetic,Printable,EqualityComparable,Positive>`. -/
def Meter (bits : Nat) : Inst :=
  ⟨bits, .MeterTag, [.IntegralArithmetic, .Printable, .EqualityComparable, .Positive]⟩

/-- Alias template `Kilometer<T>`:
`StrongType<T,struct KilometerTag,IntegralArithmetic,Printable,EqualityComparable>`. -/
def Kilometer (bits : Nat) : Inst :=
  ⟨bits, .KilometerTag, [.IntegralArithmetic, .Printable, .EqualityComparable]⟩

/-- The instantiation `Meter<long>`. -/
abbrev Meter_long : Inst := Meter 64

/-- The instantiation `Meter<int>`. -/
abbrev Meter_int : Inst := Meter 32

/-- The instantiation `Kilometer<int>`. -/
abbrev Kilometer_int : Inst := Kilometer 32

/-- An object of class `StrongType<T,Tag,Skills...>`: its only data member is `value_`. -/
structure StrongType (I : Inst) where
  value_ : Int
  deriving DecidableEq, Repr

/-- Accessor `get()`: returns (a reference to) `value_`. -/
def StrongType.get {I : Inst} (self : StrongType I) : Int :=
  self.value_

/-- The text of the exception thrown by `Positive::checkValue`. -/
def negativeValueDetected : String := "Negative value detected"

/-! ## StrongType_Cpp20.cpp -/

namespace Cpp20

/-- Member `Positive::checkValue`: `if( value < T{} ) throw std::invalid_argument( ... )`. -/
def Positive.checkValue (value : Int) : Except Failure Unit :=
  if value < 0 then .error (.invalid_argument negativeValueDetected) else .ok ()

/-- Defaulted constructor `StrongType()`: the member initialiser `value_{}` gives zero. -/
def StrongType.default (I : Inst) : StrongType I :=
  ⟨0⟩

/-- Constructor `explicit StrongType( U&& value )`, lines 150-157: `value_` is initialised
from `value`, then `checkValue( value_ )` runs when the probe finds it. -/
def StrongType.ctor (I : Inst) (value : Int) : Except Failure (StrongType I) :=
  let self : StrongType I := ⟨value⟩
  if I.hasCheckValue then
    match Positive.checkValue self.value_ with
    | .error e => .error e
    | .ok _ => .ok self
  else
    .ok self

/-- Assignment `operator=( U&& value )`, lines 193-203: when the probe finds it,
`checkValue( value_ )` runs on the data member; then `value_ = value`. -/
def StrongType.assign {I : Inst} (self : StrongType I) (value : Int) :
    Outcome (StrongType I) :=
  if I.hasCheckValue then
    match Positive.checkValue self.value_ with
    | .error (.invalid_argument what) => .threw what self
    | .error .undefined => .undefined
    | .error (.terminate _) => .undefined -- not produced by `checkValue`
    | .ok _ => .returned { self with value_ := value }
  else
    .returned { self with value_ := value }

/-- Defaulted copy assignment `operator=( StrongType const& ) &`. -/
def StrongType.copyAssign {I : Inst} (_self other : StrongType I) : StrongType I :=
  other

/-- Member `swap( StrongType& other )`: exchanges the two `value_` members. The result is
the pair (`*this`, `other`) afterwards. -/
def StrongType.swap {I : Inst} (self other : StrongType I) : StrongType I × StrongType I :=
  (⟨other.value_⟩, ⟨self.value_⟩)

/-- Hidden friend `Addable::operator+=`: `lhs.get() += rhs.get(); return lhs;`, a write
through the reference returned by `get() &`. -/
def Addable.plusAssign {I : Inst} (lhs rhs : StrongType I) : Outcome (StrongType I) :=
  match T_add I.bits lhs.get rhs.get with
  | .error _ => .undefined
  | .ok s => .returned { lhs with value_ := s }

/-- Hidden friend `Addable::operator+`, declared
`noexcept( noexcept( lhs.get() + rhs.get() ) )`: `return Derived{ lhs.get() + rhs.get() };`.
An exception of the constructor of the result meets the `noexcept` boundary. -/
def Addable.plus {I : Inst} (lhs rhs : StrongType I) : Except Failure (StrongType I) :=
  noexcept_true
    (match T_add I.bits lhs.get rhs.get with
     | .error e => .error e
     | .ok s => StrongType.ctor I s)

/-- Hidden friend `Subtractable::operator-=`: `lhs.get() -= rhs.get(); return lhs;`, a write
through the reference returned by `get() &`. -/
def Subtractable.minusAssign {I : Inst} (lhs rhs : StrongType I) : Outcome (StrongType I) :=
  match T_sub I.bits lhs.get rhs.get with
  | .error _ => .undefined
  | .ok d => .returned { lhs with value_ := d }

/-- Hidden friend `Subtractable::operator-`, declared
`noexcept( noexcept( lhs.get() - rhs.get() ) )`: `return Derived{ lhs.get() - rhs.get() };`.
An exception of the constructor of the result meets the `noexcept` boundary. -/
def Subtractable.minus {I : Inst} (lhs rhs : StrongType I) : Except Failure (StrongType I) :=
  noexcept_true
    (match T_sub I.bits lhs.get rhs.get with
     | .error e => .error e
     | .ok d => StrongType.ctor I d)

/-- Hidden friend `EqualityComparable::operator==`: `return lhs.get() == rhs.get();`. -/
def EqualityComparable.eq {I : Inst} (lhs rhs : StrongType I) : Bool :=
  decide (lhs.get = rhs.get)

/-- The expression `StrongType{ a } + StrongType{ b }` on two freshly constructed objects. -/
def plusExpr (I : Inst) (a b : Int) : Except Failure (StrongType I) := do
  let lhs ← StrongType.ctor I a
  let rhs ← StrongType.ctor I b
  Addable.plus lhs rhs

/-- The expression `StrongType{ a } - StrongType{ b }` on two freshly constructed objects. -/
def minusExpr (I : Inst) (a b : Int) : Except Failure (StrongType I) := do
  let lhs ← StrongType.ctor I a
  let rhs ← StrongType.ctor I b
  Subtractable.minus lhs rhs

/-- The expression `StrongType{ a } == StrongType{ b }` on two freshly constructed objects. -/
def eqExpr (I : Inst) (a b : Int) : Except Failure Bool := do
  let lhs ← StrongType.ctor I a
  let rhs ← StrongType.ctor I b
  pure (EqualityComparable.eq lhs rhs)

end Cpp20

/-! ## StrongType_Cpp17.cpp -/

namespace Cpp17

/-- Member `Positive::checkValue`: `if( value < T{} ) throw std::invalid_argument( ... )`. -/
def Positive.checkValue (value : Int) : Except Failure Unit :=
  if value < 0 then .error (.invalid_argument negativeValueDetected) else .ok ()

/-- Defaulted constructor `StrongType()`: the member initialiser `value_{}` gives zero. -/
def StrongType.default (I : Inst) : StrongType I :=
  ⟨0⟩

/-- Constructor `explicit StrongType( U&& value )`, lines 201-207: `value_` is initialised
from `value`, then `checkValue( value_ )` runs when `hasCheckValue` is detected. -/
def StrongType.ctor (I : Inst) (value : Int) : Except Failure (StrongType I) :=
  let self : StrongType I := ⟨value⟩
  if I.hasCheckValue then
    match Positive.checkValue self.value_ with
    | .error e => .error e
    | .ok _ => .ok self
  else
    .ok self

/-- Assignment `operator=( U&& value )`, lines 240-249: when `hasCheckValue` is detected,
`checkValue( value )` runs on the argument; then `value_ = value`. -/
def StrongType.assign {I : Inst} (self : StrongType I) (value : Int) :
    Outcome (StrongType I) :=
  if I.hasCheckValue then
    match Positive.checkValue value with
    | .error (.invalid_argument what) => .threw what self
    | .error .undefined => .undefined
    | .error (.terminate _) => .undefined -- not produced by `checkValue`
    | .ok _ => .returned { self with value_ := value }
  else
    .returned { self with value_ := value }

/-- Hidden friend `Addable::operator+=`: `lhs.get() += rhs.get(); return lhs;`. -/
def Addable.plusAssign {I : Inst} (lhs rhs : StrongType I) : Outcome (StrongType I) :=
  match T_add I.bits lhs.get rhs.get with
  | .error _ => .undefined
  | .ok s => .returned { lhs with value_ := s }

/-- Hidden friend `Addable::operator+`, declared
`noexcept( noexcept( lhs.get() + rhs.get() ) )`: `return Derived{ lhs.get() + rhs.get() };`.
An exception of the constructor of the result meets the `noexcept` boundary. -/
def Addable.plus {I : Inst} (lhs rhs : StrongType I) : Except Failure (StrongType I) :=
  noexcept_true
    (match T_add I.bits lhs.get rhs.get with
     | .error e => .error e
     | .ok s => StrongType.ctor I s)

/-- Hidden friend `Subtractable::operator-=`: `lhs.get() -= rhs.get(); return lhs;`. -/
def Subtractable.minusAssign {I : Inst} (lhs rhs : StrongType I) : Outcome (StrongType I) :=
  match T_sub I.bits lhs.get rhs.get with
  | .error _ => .undefined
  | .ok d => .returned { lhs with value_ := d }

/-- Hidden friend `Subtractable::operator-`, declared
`noexcept( noexcept( lhs.get() - rhs.get() ) )`: `return Derived{ lhs.get() - rhs.get() };`.
An exception of the constructor of the result meets the `noexcept` boundary. -/
def Subtractable.minus {I : Inst} (lhs rhs : StrongType I) : Except Failure (StrongType I) :=
  noexcept_true
    (match T_sub I.bits lhs.get rhs.get with
     | .error e => .error e
     | .ok d => StrongType.ctor I d)

/-- Hidden friend `EqualityComparable::operator==`: `return lhs.get() == rhs.get();`. -/
def EqualityComparable.eq {I : Inst} (lhs rhs : StrongType I) : Bool :=
  decide (lhs.get = rhs.get)

/-- Hidden friend `EqualityComparable::operator!=`: `return !( lhs == rhs );`. -/
def EqualityComparable.ne {I : Inst} (lhs rhs : StrongType I) : Bool :=
  !(EqualityComparable.eq lhs rhs)

/-- The expression `StrongType{ a } + StrongType{ b }` on two freshly constructed objects. -/
def plusExpr (I : Inst) (a b : Int) : Except Failure (StrongType I) := do
  let lhs ← StrongType.ctor I a
  let rhs ← StrongType.ctor I b
  Addable.plus lhs rhs

/-- The expression `StrongType{ a } - StrongType{ b }` on two freshly constructed objects. -/
def minusExpr (I : Inst) (a b : Int) : Except Failure (StrongType I) := do
  let lhs ← StrongType.ctor I a
  let rhs ← StrongType.ctor I b
  Subtractable.minus lhs rhs

/-- The expression `StrongType{ a } == StrongType{ b }` on two freshly constructed objects. -/
def eqExpr (I : Inst) (a b : Int) : Except Failure Bool := do
  let lhs ← StrongType.ctor I a
  let rhs ← StrongType.ctor I b
  pure (EqualityComparable.eq lhs rhs)

end Cpp17

/-! ## StrongType_Assembly.cpp -/

namespace Assembly

/-- An object of the skill-less class `StrongType<T,Tag>` of `StrongType_Assembly.cpp`. -/
structure StrongType where
  value_ : Int
  deriving DecidableEq, Repr

/-- Constructor `explicit StrongType( U&& value ) : value_( std::forward<U>(value) ) {}`. -/
def StrongType.ctor (value : Int) : StrongType :=
  ⟨value⟩

/-- Accessor `get() const &`: returns `value_`. -/
def StrongType.get (self : StrongType) : Int :=
  self.value_

end Assembly

/-! ## Sequences of public operations on `Meter<long>` objects (StrongType_Cpp20.cpp) -/

/-- The `Meter<long>` objects of a program, in order of creation. -/
abbrev Store := List (StrongType Meter_long)

/-- A public operation of `StrongType_Cpp20.cpp` on `Meter<long>` objects; an object is
named by its position in the store. -/
inductive MeterOp where
  /-- Declaration `Meter<long> m{};` of a new object. -/
  | defaultConstruct
  /-- Declaration `Meter<long> m{ v };` of a new object. -/
  | construct (v : Int)
  /-- Raw-value assignment `m_i = v;`. -/
  | assignRaw (i : Nat) (v : Int)
  /-- Copy assignment `m_i = m_j;`. -/
  | copyAssign (i j : Nat)
  /-- Declaration `auto m = m_i + m_j;` of a new object. -/
  | plus (i j : Nat)
  /-- Compound assignment `m_i += m_j;`. -/
  | plusAssign (i j : Nat)
  /-- Declaration `auto m = m_i - m_j;` of a new object. -/
  | minus (i j : Nat)
  /-- Compound assignment `m_i -= m_j;`. -/
  | minusAssign (i j : Nat)
  /-- Call `m_i.swap( m_j );` (the free `swap( m_i, m_j )` forwards to it). -/
  | swap (i j : Nat)
  deriving DecidableEq, Repr

/-- One operation on the store. The result is `none` when the operation is rejected: it
throws, has undefined behaviour, or names an object that does not exist. -/
def step (s : Store) : MeterOp → Option Store
  | .defaultConstruct => some (s ++ [Cpp20.StrongType.default Meter_long])
  | .construct v =>
    match Cpp20.StrongType.ctor Meter_long v with
    | .ok m => some (s ++ [m])
    | .error _ => none
  | .assignRaw i v =>
    match s[i]? with
    | some m =>
      match Cpp20.StrongType.assign m v with
      | .returned m1 => some (s.set i m1)
      | _ => none
    | none => none
  | .copyAssign i j =>
    match s[i]?, s[j]? with
    | some a, some b => some (s.set i (Cpp20.StrongType.copyAssign a b))
    | _, _ => none
  | .plus i j =>
    match s[i]?, s[j]? with
    | some a, some b =>
      match Cpp20.Addable.plus a b with
      | .ok m => some (s ++ [m])
      | .error _ => none
    | _, _ => none
  | .plusAssign i j =>
    match s[i]?, s[j]? with
    | some a, some b =>
      match Cpp20.Addable.plusAssign a b with
      | .returned a1 => some (s.set i a1)
      | _ => none
    | _, _ => none
  | .minus i j =>
    match s[i]?, s[j]? with
    | some a, some b =>
      match Cpp20.Subtractable.minus a b with
      | .ok m => some (s ++ [m])
      | .error _ => none
    | _, _ => none
  | .minusAssign i j =>
    match s[i]?, s[j]? with
    | some a, some b =>
      match Cpp20.Subtractable.minusAssign a b with
      | .returned a1 => some (s.set i a1)
      | _ => none
    | _, _ => none
  | .swap i j =>
    match s[i]?, s[j]? with
    | some a, some b =>
      some ((s.set i (Cpp20.StrongType.swap a b).1).set j (Cpp20.StrongType.swap a b).2)
    | _, _ => none

/-- A sequence of operations, run from the store `s`; `none` when one of them is rejected. -/
def run (s : Store) : List MeterOp → Option Store
  | [] => some s
  | op :: ops =>
    match step s op with
    | some s1 => run s1 ops
    | none => none

/-- Every object of the store holds a value `≥ 0`. -/
def allNonNegative (s : Store) : Prop :=
  ∀ m ∈ s, 0 ≤ m.get

instance (s : Store) : Decidable (allNonNegative s) :=
  inferInstanceAs (Decidable (∀ m ∈ s, 0 ≤ m.get))

/-- The operations whose result is written through a validating constructor, copied from an
existing object, or is a sum: all of `MeterOp` but the raw-value assignment and `-=`. -/
def MeterOp.keepsStored : MeterOp → Bool
  | .assignRaw _ _ => false
  | .minusAssign _ _ => false
  | _ => true

/-! ## Conversions, literal operators and further members -/

/-- Conversion `static_cast<T>( m )` of an `unsigned long long` value `m` to a signed
integral type `T` of width `bits`: the value of `T` congruent to `m` modulo `2 ^ bits`. -/
def static_cast_signed (bits : Nat) (m : Nat) : Int :=
  if (m : Int) % 2 ^ bits < 2 ^ (bits - 1) then (m : Int) % 2 ^ bits
  else (m : Int) % 2 ^ bits - 2 ^ bits

/-- How a call of a function declared `noexcept` ends. -/
inductive NoexceptOutcome (α : Type) where
  /-- The call returned the value `a`. -/
  | value (a : α)
  /-- The exception `std::invalid_argument( what )` reached the `noexcept` boundary:
  `std::terminate()` is called and nothing is returned. -/
  | terminate (what : String)
  /-- The call has undefined behaviour. -/
  | undefined
  deriving DecidableEq, Repr

/-- The `noexcept` specification around a function body with result `r`. -/
def noexceptCall {α : Type} (r : Except Failure α) : NoexceptOutcome α :=
  match r with
  | .ok a => .value a
  | .error (.invalid_argument what) => .terminate what
  | .error (.terminate what) => .terminate what
  | .error .undefined => .undefined

namespace Cpp20

/-- Free function `swap( a, b )`, lines 250-255: `a.swap( b );`. -/
def swap {I : Inst} (a b : StrongType I) : StrongType I × StrongType I :=
  StrongType.swap a b

/-- Converting constructor `explicit StrongType( StrongType<U,Tag,Skills...> const& value )`,
lines 168-172: `value_{ value.get() }` and an empty body. Source and target have the same tag
and the same skills; the brace initialisation admits only a value-preserving conversion
from `U` to `T` (`bitsU ≤ bitsT`). -/
def StrongType.ctorConv (bitsT : Nat) {bitsU : Nat} {tag : Tag} {skills : List Skill}
    (value : StrongType ⟨bitsU, tag, skills⟩) : StrongType ⟨bitsT, tag, skills⟩ :=
  ⟨value.get⟩

/-- Literal operator `operator""_m( unsigned long long m ) noexcept`, lines 263-266:
`return Meter<long>{ static_cast<long>(m) };`. -/
def operator_m (m : Nat) : NoexceptOutcome (StrongType Meter_long) :=
  noexceptCall (StrongType.ctor Meter_long (static_cast_signed 64 m))

/-- Literal operator `operator""_km( unsigned long long m ) noexcept`, lines 279-282:
`return Kilometer<int>{ static_cast<int>(m) };`. -/
def operator_km (m : Nat) : NoexceptOutcome (StrongType Kilometer_int) :=
  noexceptCall (StrongType.ctor Kilometer_int (static_cast_signed 32 m))

/-- The statement `x += y;` on two distinct objects: the states of `x` and of `y`
afterwards. `y` is bound to a reference to const and is only read. -/
def plusAssignStmt {I : Inst} (x y : StrongType I) : Outcome (StrongType I × StrongType I) :=
  match Addable.plusAssign x y with
  | .returned x1 => .returned (x1, y)
  | .threw what x1 => .threw what (x1, y)
  | .undefined => .undefined

/-- The statement `x -= y;` on two distinct objects: the states of `x` and of `y`
afterwards. `y` is bound to a reference to const and is only read. -/
def minusAssignStmt {I : Inst} (x y : StrongType I) : Outcome (StrongType I × StrongType I) :=
  match Subtractable.minusAssign x y with
  | .returned x1 => .returned (x1, y)
  | .threw what x1 => .threw what (x1, y)
  | .undefined => .undefined

end Cpp20

/-! ## Tasks/2_Safe_Cpp/StrongType2.cpp -/

namespace StrongType2

/-- Alias template `Meter<T>` of `StrongType2.cpp`: `StrongType<T,struct MeterTag>`. -/
def Meter (bits : Nat) : Inst :=
  ⟨bits, .MeterTag, []⟩

/-- Alias template `Kilometer<T>` of `StrongType2.cpp`: `StrongType<T,struct KilometerTag>`. -/
def Kilometer (bits : Nat) : Inst :=
  ⟨bits, .KilometerTag, []⟩

/-- Constructors `explicit StrongType( T const& value )` and `explicit StrongType( T&& value )`,
lines 41-43: `value_( value )` and an empty body. -/
def StrongType.ctor (I : Inst) (value : Int) : StrongType I :=
  ⟨value⟩

/-- Member `swap( StrongType& other )`, lines 59-62: `using std::swap;
swap( value_, other.value_ );`. The result is the pair (`*this`, `other`) afterwards. -/
def StrongType.swap {I : Inst} (self other : StrongType I) : StrongType I × StrongType I :=
  (⟨other.value_⟩, ⟨self.value_⟩)

/-- Free function `swap( a, b )`, lines 74-78: `a.swap( b );`. -/
def swap {I : Inst} (a b : StrongType I) : StrongType I × StrongType I :=
  StrongType.swap a b

/-- Literal operator `operator""_km( unsigned long long m ) noexcept`, lines 102-105:
`return Kilometer<int>{ static_cast<int>(m) };`. -/
def operator_km (m : Nat) : NoexceptOutcome (StrongType (Kilometer 32)) :=
  noexceptCall (.ok (StrongType.ctor (Kilometer 32) (static_cast_signed 32 m)))

end StrongType2

/-! ## The two `test` functions of StrongType_Assembly.cpp -/

namespace Assembly

/-- Function `int test( int meter )`, lines 156-159: `return meter+7;`. -/
def test_int (meter : Int) : Except Failure Int :=
  T_add 32 meter 7

/-- Function `Meter test( Meter meter )`, lines 161-164: `return Meter{ meter.get()+7 };`,
with `Meter = StrongType<int,struct MeterTag>`. -/
def test_Meter (meter : StrongType) : Except Failure StrongType :=
  match T_add 32 meter.get 7 with
  | .error e => .error e
  | .ok s => .ok (StrongType.ctor s)

end Assembly

/-! ## Meter_Assembly.cpp -/

namespace Meter_Assembly

/-- An object of class `Meter<int>` of `Meter_Assembly.cpp`: its only data member is
`value_`. -/
structure Meter where
  value_ : Int
  deriving DecidableEq, Repr

/-- Constructor `explicit constexpr Meter( U meter ) : value_( meter ) {}`. -/
def Meter.ctor (meter : Int) : Meter :=
  ⟨meter⟩

/-- Accessor `get() const noexcept`: `return value_;`. -/
def Meter.get (self : Meter) : Int :=
  self.value_

/-- Function `int test( int meter )`, lines 61-64: `return meter+7;`. -/
def test_int (meter : Int) : Except Failure Int :=
  T_add 32 meter 7

/-- Function `Meter<int> test( Meter<int> meter )`, lines 66-69:
`return Meter<int>{ meter.get()+7 };`. -/
def test_Meter (meter : Meter) : Except Failure Meter :=
  match T_add 32 meter.get 7 with
  | .error e => .error e
  | .ok s => .ok (Meter.ctor s)

end Meter_Assembly

/-! ## Meter_Cpp20.cpp -/

/-- An integral type `T`: its signedness and its width (`short` is 16 bits wide, `int` and
`unsigned` 32, `long` 64). -/
structure IntegralType where
  signed : Bool
  bits : Nat
  deriving DecidableEq, Repr

/-- The value `x` is a value of the integral type `T`. -/
def IntegralType.holds (T : IntegralType) (x : Int) : Prop :=
  if T.signed then representable T.bits x else 0 ≤ x ∧ x < (2 : Int) ^ T.bits

instance (T : IntegralType) (x : Int) : Decidable (T.holds x) :=
  inferInstanceAs (Decidable (if T.signed then representable T.bits x
    else 0 ≤ x ∧ x < (2 : Int) ^ T.bits))

/-- Built-in `a + b` evaluated in the integral type `T`: signed overflow is undefined,
unsigned arithmetic is modulo `2 ^ bits`. -/
def IntegralType.add (T : IntegralType) (a b : Int) : Except Failure Int :=
  if T.signed then T_add T.bits a b else .ok ((a + b) % (2 : Int) ^ T.bits)

/-- Integral promotion: the operands of a built-in arithmetic operation that have a type
narrower than `int` are converted to `int`; a type of rank at least `int` is unchanged. -/
def IntegralType.promote (T : IntegralType) : IntegralType :=
  if T.bits < 32 then ⟨true, 32⟩ else T

namespace Meter_Cpp20

/-- An object of class `Meter<T>` of `Meter_Cpp20.cpp`: its only data member is `value_`. -/
structure Meter (T : IntegralType) where
  value_ : Int
  deriving DecidableEq, Repr

/-- Constructor `explicit constexpr Meter( U meter ) : value_( meter ) {}`, lines 50-54, with
`U` the same type as `T`. -/
def Meter.ctor (T : IntegralType) (meter : Int) : Meter T :=
  ⟨meter⟩

/-- Accessor `get() const noexcept`, line 62: `return value_;`. -/
def Meter.get {T : IntegralType} (self : Meter T) : Int :=
  self.value_

/-- Function template `operator+( Meter<T> lhs, Meter<T> rhs )`, lines 86-90:
`return Meter<T>{ lhs.get() + rhs.get() };`. The sum has the promoted type `U` of `T`, and
`Meter<T>{ sum }` needs the constructor `Meter( U )`, which requires `std::same_as<T,U>`
(lines 50-52): when `U` is not `T` no constructor is viable and the template does not
instantiate, `none`. Otherwise the result is the outcome of the call. -/
def plus {T : IntegralType} (lhs rhs : Meter T) : Option (Except Failure (Meter T)) :=
  if T.promote = T then
    some
      (match T.add lhs.get rhs.get with
       | .error e => .error e
       | .ok s => .ok (Meter.ctor T s))
  else
    none

end Meter_Cpp20

/-! ## Erase.cpp -/

namespace Erase

/-- Function `bool is_odd( int i )`, lines 21-24: `return i % 2 == 1;`. The built-in `%`
truncates towards zero (`Int.tmod`). -/
def is_odd (i : Int) : Bool :=
  decide (Int.tmod i 2 = 1)

/-- Function `is_odd_number()`, lines 27-32: returns the closure
`[]( int i ){ return is_odd(i); }`. -/
def is_odd_number : Int → Bool :=
  fun i => is_odd i

/-- Library function `std::erase_if( v, pred )` on a `std::vector`: erases every element for
which `pred` is true and keeps the others in their order. -/
def erase_if (v : List Int) (pred : Int → Bool) : List Int :=
  v.filter (fun i => !pred i)

end Erase

/-! ## Tasks/2_Safe_Cpp/UniquePtr_constexpr.cpp -/

namespace UniquePtr

/-- A pointer value: the null pointer or the address of an object. -/
inductive Pointer where
  | nullptr
  | address (a : Nat)
  deriving DecidableEq, Repr

/-- The content of a scalar data member: indeterminate as long as nothing initialised it. -/
inductive Member (α : Type) where
  | indeterminate
  | value (a : α)
  deriving DecidableEq, Repr

/-- The `int` objects created by `new`: the value stored at each address in use. -/
abbrev Heap := Nat → Option Int

/-- An object of class `unique_ptr<T>`: its only data member is `T* ptr_;`, declared without
an initialiser. -/
structure unique_ptr where
  ptr_ : Member Pointer
  deriving DecidableEq, Repr

/-- Constructor `unique_ptr() {}`, line 27: no member initialiser, empty body. -/
def unique_ptr.default : unique_ptr :=
  ⟨.indeterminate⟩

/-- Constructor `unique_ptr( T* ptr ) : ptr_{ptr} {}`, line 28. -/
def unique_ptr.ctor (ptr : Pointer) : unique_ptr :=
  ⟨.value ptr⟩

/-- Implicitly defined move constructor: copies the member `ptr_` of the source, which is
left as it was. -/
def unique_ptr.moveCtor (other : unique_ptr) : unique_ptr :=
  ⟨other.ptr_⟩

/-- Member `T* get() const { return ptr_; }`, line 31. Reading an indeterminate value is
undefined behaviour: `none`. -/
def unique_ptr.get (self : unique_ptr) : Option Pointer :=
  match self.ptr_ with
  | .indeterminate => none
  | .value p => some p

/-- Member `T& operator*() const { return *ptr_; }`, line 30, followed by a read of the
referenced `int`. Undefined (`none`) unless `ptr_` is the address of an object. -/
def unique_ptr.deref (self : unique_ptr) (heap : Heap) : Option Int :=
  match self.ptr_ with
  | .value (.address a) => heap a
  | _ => none

end UniquePtr

/-! ## Country.h, Continent.h and the loops of Ranges_constexpr.cpp and AddressSanitizer.cpp

`std::vector` is a `List`. An access outside the bounds of a vector is undefined behaviour:
the functions that index or copy a range return `none` for it. `unsigned int area` is a
`Nat` (it is only compared). `float residents` is a rational number: the code only copies
and compares it, and the finite values of `float` are ordered as the rationals they denote
(no NaN); a decimal literal stands for the `float` nearest to it. -/

/-- Aggregate `struct Country`. -/
structure Country where
  name : String
  capital : String
  area : Nat
  residents : ℚ
  deriving DecidableEq, Repr

/-- Aggregate `struct Continent`. -/
structure Continent where
  name : String
  countries : List Country
  deriving DecidableEq, Repr

/-- The loop `auto pos = begin(tmp); while( pos != end(tmp) && pos->area > country.area )
++pos;`: the index of the position reached. -/
def find_pos : List Country → Country → Nat
  | [], _ => 0
  | c :: rest, country => if c.area > country.area then find_pos rest country + 1 else 0

/-- Body of the inner range-based `for`: `tmp.insert( pos, country )` at the position
found. -/
def insert_country (tmp : List Country) (country : Country) : List Country :=
  tmp.take (find_pos tmp country) ++ country :: tmp.drop (find_pos tmp country)

/-- The insertion phase: `for( continent : continents ) for( country : continent.countries )`
around `insert_country`, started with the empty vector `tmp`. -/
def insertion_phase (continents : List Continent) : List Country :=
  continents.foldl (fun tmp continent => continent.countries.foldl insert_country tmp) []

/-- Range constructor `std::vector<Country> countries{ begin(tmp), begin(tmp)+n }`: a copy of
the first `n` elements; `none` when the range ends behind `end(tmp)`. -/
def copy_range (tmp : List Country) (n : Nat) : Option (List Country) :=
  if n ≤ tmp.length then some (tmp.take n) else none

/-- The inner loop `for( size_t j=...; j<bound; ++j )` with `remaining = bound - j` iterations
to go: `country2 = countries[j]`, and `country1` (the reference to `countries[i-1U]`) and
`country2` are exchanged when `country1.residents < country2.residents`. -/
def inner_loop (i : Nat) : Nat → Nat → List Country → Option (List Country)
  | 0, _, countries => some countries
  | remaining + 1, j, countries =>
    match countries[i - 1]?, countries[j]? with
    | some country1, some country2 =>
      if country1.residents < country2.residents then
        inner_loop i remaining (j + 1) ((countries.set (i - 1) country2).set j country1)
      else
        inner_loop i remaining (j + 1) countries
    | _, _ => none

/-- The outer loop `for( size_t i=...; i<bound; ++i )` with `remaining = bound - i` iterations
to go: `auto& country1 = countries[i-1U];`, then the inner loop from `j = i`. -/
def outer_loop (bound : Nat) : Nat → Nat → List Country → Option (List Country)
  | 0, _, countries => some countries
  | remaining + 1, i, countries =>
    match countries[i - 1]? with
    | some _ =>
      match inner_loop i (bound - i) i countries with
      | some countries1 => outer_loop bound remaining (i + 1) countries1
      | none => none
    | none => none

/-- The loop nest `for( size_t i=1U; i<bound; ++i ) ...` on `countries`. -/
def reorder (bound : Nat) (countries : List Country) : Option (List Country) :=
  outer_loop bound (bound - 1) 1 countries

namespace Ranges

/-- Function `extract_five_largest_countries` of `Ranges_constexpr.cpp`, lines 142-176. -/
def extract_five_largest_countries (continents : List Continent) : Option (List Country) :=
  let tmp := insertion_phase continents
  let number_of_countries := min tmp.length 5
  match copy_range tmp number_of_countries with
  | some countries => reorder number_of_countries countries
  | none => none

end Ranges

namespace AddressSanitizer

/-- The data of `print_countries` in `Tasks/2_Safe_Cpp/AddressSanitizer.cpp`, lines
108-115. -/
def continents : List Continent :=
  [ ⟨"South America",
      [ ⟨"Brasil", "Brasilia", 8515877, 208.4⟩
      , ⟨"Bolivia", "Sucre", 1098581, 11.1⟩ ]⟩
  , ⟨"Asia",
      [ ⟨"China", "Beijing", 9596961, 1400.0⟩
      , ⟨"Indonesia", "Jakarta", 1904569, 264.2⟩ ]⟩ ]

/-- The computation of `print_countries`, lines 118-145, up to the output loop: the
insertion phase, the range copy with the constant `5U` and the loop nest with the bound
`5U`. -/
def print_countries : Option (List Country) :=
  let tmp := insertion_phase continents
  match copy_range tmp 5 with
  | some countries => reorder 5 countries
  | none => none

end AddressSanitizer

/-- The countries of a list of continents, continents in order, countries in order. -/
def all_countries : List Continent → List Country
  | [] => []
  | continent :: rest => continent.countries ++ all_countries rest

/-! ## A functional description of the loop nest (used in the proofs about `reorder`) -/

/-- One pass of the inner loop, seen from `country1 = x` over the countries `post` behind it:
the country left in the place of `x` and the countries left behind it. -/
def sweep (x : Country) : List Country → Country × List Country
  | [] => (x, [])
  | y :: ys =>
    if x.residents < y.residents then ((sweep y ys).1, x :: (sweep y ys).2)
    else ((sweep x ys).1, y :: (sweep x ys).2)

/-- The first `passes` iterations of the outer loop on the part of the vector not yet
fixed: each pass fixes the first place by `sweep`. -/
def sweep_passes : Nat → List Country → List Country
  | 0, countries => countries
  | _ + 1, [] => []
  | passes + 1, x :: post => (sweep x post).1 :: sweep_passes passes (sweep x post).2

/-! ## Tasks/2_Safe_Cpp/ToInt.cpp -/

namespace ToInt

/-- The values of `std::errc` that `std::from_chars` reports (`success` is `std::errc{}`). -/
inductive errc where
  | success
  | invalid_argument
  | result_out_of_range
  deriving DecidableEq, Repr

/-- Struct `std::from_chars_result`: `ptr` as an offset from `first`, and `ec`. -/
structure from_chars_result where
  ptr : Nat
  ec : errc
  deriving DecidableEq, Repr

/-- The number that a digit character denotes. -/
def digit_value (c : Char) : Nat :=
  c.toNat - 48

/-- The number that a sequence of decimal digits denotes. -/
def decimal_value (digits : List Char) : Nat :=
  digits.foldl (fun n c => 10 * n + digit_value c) 0

/-- Library function `std::from_chars( first, last, value )` for `int` and base 10, as the
C++ standard specifies it: the pattern is an optional minus sign followed by the longest run
of decimal digits, with no leading whitespace and no plus sign. Without a match, `value` is
unmodified and `ec` is `invalid_argument`; when the parsed number is not representable in
`int`, `value` is unmodified and `ec` is `result_out_of_range`; otherwise `value` is the
parsed number. The result is the pair of the returned struct and `value` afterwards. -/
def from_chars (chars : List Char) (value : Int) : from_chars_result × Int :=
  let negative : Bool := decide (chars.head? = some '-')
  let body : List Char := if negative then chars.tail else chars
  let digits : List Char := body.takeWhile Char.isDigit
  if digits = [] then
    (⟨0, .invalid_argument⟩, value)
  else
    let n : Int := if negative then -(decimal_value digits : Int) else (decimal_value digits : Int)
    let ptr : Nat := (if negative then 1 else 0) + digits.length
    if representable 32 n then (⟨ptr, .success⟩, n) else (⟨ptr, .result_out_of_range⟩, value)

/-- Function `int to_int( std::string_view sv )`, solution 1, lines 25-32: `int i{};
std::from_chars( sv.data(), sv.data() + sv.size(), i ); return i;`. -/
def to_int (sv : List Char) : Int :=
  (from_chars sv 0).2

/-- The string starts with a decimal integer: an optional minus sign followed by at least
one digit. -/
def starts_with_integer (sv : List Char) : Prop :=
  ∃ d rest, d.isDigit = true ∧ (sv = d :: rest ∨ sv = '-' :: d :: rest)

end ToInt

/-! ## Theorems -/

/-- C1: in `StrongType_Cpp20.cpp`, constructing a `Meter<long>` from a raw value `v` throws
`std::invalid_argument` (no object is produced) if and only if `v < 0`; for every `v ≥ 0`,
zero included, the construction succeeds and `get()` of the object is `v`. -/
theorem C1_Meter_ctor_rejects_iff_negative (v : Int) :
    (Cpp20.StrongType.ctor Meter_long v = .error (.invalid_argument negativeValueDetected)
        ↔ v < 0) ∧
    (0 ≤ v → ∃ m, Cpp20.StrongType.ctor Meter_long v = .ok m ∧ m.get = v) := by
  constructor
  · by_cases h : v < 0 <;>
      simp [Cpp20.StrongType.ctor, Cpp20.Positive.checkValue, Inst.hasCheckValue, Meter, h]
  · intro h
    refine ⟨⟨v⟩, ?_, rfl⟩
    simp [Cpp20.StrongType.ctor, Cpp20.Positive.checkValue, Inst.hasCheckValue, Meter,
      not_lt.mpr h]

/-- Witness of C1 at `v = 0`: `Meter<long>{ 0L }` is constructed and holds zero. -/
theorem C1_Meter_ctor_rejects_iff_negative_witness :
    (0 : Int) ≤ 0 ∧ ∃ m, Cpp20.StrongType.ctor Meter_long 0 = .ok m ∧ m.get = 0 :=
  ⟨le_refl 0, (C1_Meter_ctor_rejects_iff_negative 0).2 (le_refl 0)⟩

/-! ### Shared lemmas -/

theorem Meter_hasCheckValue (bits : Nat) : (Meter bits).hasCheckValue = true := by
  simp [Inst.hasCheckValue, Meter]

theorem Kilometer_hasCheckValue (bits : Nat) : (Kilometer bits).hasCheckValue = false := by
  simp [Inst.hasCheckValue, Kilometer]

theorem noexcept_true_ok {α : Type} (a : α) :
    noexcept_true (.ok a : Except Failure α) = .ok a :=
  rfl

theorem noexcept_true_invalid_argument {α : Type} (what : String) :
    noexcept_true (.error (.invalid_argument what) : Except Failure α)
      = .error (.terminate what) :=
  rfl

theorem noexcept_true_undefined {α : Type} :
    noexcept_true (.error .undefined : Except Failure α) = .error .undefined :=
  rfl

theorem noexcept_true_eq_ok {α : Type} {r : Except Failure α} {a : α}
    (h : noexcept_true r = .ok a) : r = .ok a := by
  cases r with
  | error e => cases e <;> simp [noexcept_true] at h
  | ok x => simpa [noexcept_true] using h

theorem Cpp20_ctor_Meter (bits : Nat) (v : Int) :
    Cpp20.StrongType.ctor (Meter bits) v =
      if v < 0 then .error (.invalid_argument negativeValueDetected) else .ok ⟨v⟩ := by
  by_cases h : v < 0 <;>
    simp [Cpp20.StrongType.ctor, Cpp20.Positive.checkValue, Meter_hasCheckValue, h]

theorem Cpp17_ctor_Meter (bits : Nat) (v : Int) :
    Cpp17.StrongType.ctor (Meter bits) v =
      if v < 0 then .error (.invalid_argument negativeValueDetected) else .ok ⟨v⟩ := by
  by_cases h : v < 0 <;>
    simp [Cpp17.StrongType.ctor, Cpp17.Positive.checkValue, Meter_hasCheckValue, h]

theorem Cpp20_ctor_Kilometer (bits : Nat) (v : Int) :
    Cpp20.StrongType.ctor (Kilometer bits) v = .ok ⟨v⟩ := by
  simp [Cpp20.StrongType.ctor, Kilometer_hasCheckValue]

theorem Cpp17_ctor_Kilometer (bits : Nat) (v : Int) :
    Cpp17.StrongType.ctor (Kilometer bits) v = .ok ⟨v⟩ := by
  simp [Cpp17.StrongType.ctor, Kilometer_hasCheckValue]

theorem Cpp20_ctor_Meter_ok_nonneg {bits : Nat} {v : Int} {m : StrongType (Meter bits)}
    (h : Cpp20.StrongType.ctor (Meter bits) v = .ok m) : 0 ≤ m.get := by
  rw [Cpp20_ctor_Meter] at h
  by_cases hv : v < 0
  · simp [hv] at h
  · simp only [hv, if_false, Except.ok.injEq] at h
    subst h
    exact not_lt.mp hv

/-- In `StrongType_Cpp20.cpp` the raw-value assignment to a `Meter` holding `p ≥ 0` stores
any candidate value: the hook is applied to the old value `p`. -/
theorem Cpp20_assign_Meter_of_nonneg (bits : Nat) (p v : Int) (hp : 0 ≤ p) :
    Cpp20.StrongType.assign (⟨p⟩ : StrongType (Meter bits)) v = .returned ⟨v⟩ := by
  simp [Cpp20.StrongType.assign, Cpp20.Positive.checkValue, Meter_hasCheckValue, not_lt.mpr hp]

theorem allNonNegative_append {s : Store} {m : StrongType Meter_long}
    (hs : allNonNegative s) (hm : 0 ≤ m.get) : allNonNegative (s ++ [m]) := by
  intro x hx
  rcases List.mem_append.mp hx with h | h
  · exact hs x h
  · rw [List.mem_singleton.mp h]
    exact hm

theorem allNonNegative_set {s : Store} {m : StrongType Meter_long} (i : Nat)
    (hs : allNonNegative s) (hm : 0 ≤ m.get) : allNonNegative (s.set i m) := by
  intro x hx
  rcases List.mem_or_eq_of_mem_set hx with h | h
  · exact hs x h
  · rw [h]
    exact hm

theorem Cpp20_plus_Meter_ok_nonneg {bits : Nat} {a b m : StrongType (Meter bits)}
    (h : Cpp20.Addable.plus a b = .ok m) : 0 ≤ m.get := by
  unfold Cpp20.Addable.plus at h
  have h2 := noexcept_true_eq_ok h
  split at h2
  · cases h2
  · exact Cpp20_ctor_Meter_ok_nonneg h2

theorem Cpp20_minus_Meter_ok_nonneg {bits : Nat} {a b m : StrongType (Meter bits)}
    (h : Cpp20.Subtractable.minus a b = .ok m) : 0 ≤ m.get := by
  unfold Cpp20.Subtractable.minus at h
  have h2 := noexcept_true_eq_ok h
  split at h2
  · cases h2
  · exact Cpp20_ctor_Meter_ok_nonneg h2

theorem Cpp20_plusAssign_returned_nonneg {I : Inst} {a b a1 : StrongType I}
    (ha : 0 ≤ a.get) (hb : 0 ≤ b.get)
    (h : Cpp20.Addable.plusAssign a b = .returned a1) : 0 ≤ a1.get := by
  unfold Cpp20.Addable.plusAssign T_add at h
  by_cases hr : representable I.bits (a.get + b.get)
  · simp only [hr, if_true, Outcome.returned.injEq] at h
    subst h
    exact Int.add_nonneg ha hb
  · simp [hr] at h

/-- One operation other than the raw-value assignment and `-=` keeps every stored value
non-negative. -/
theorem step_keeps_allNonNegative {s s1 : Store} {op : MeterOp}
    (hs : allNonNegative s) (hop : op.keepsStored = true) (h : step s op = some s1) :
    allNonNegative s1 := by
  cases op with
  | defaultConstruct =>
    simp only [step, Option.some.injEq] at h
    subst h
    exact allNonNegative_append hs (le_refl 0)
  | construct v =>
    simp only [step] at h
    split at h
    · rename_i m hm
      simp only [Option.some.injEq] at h
      subst h
      exact allNonNegative_append hs (Cpp20_ctor_Meter_ok_nonneg hm)
    · cases h
  | assignRaw i v => simp [MeterOp.keepsStored] at hop
  | minusAssign i j => simp [MeterOp.keepsStored] at hop
  | copyAssign i j =>
    simp only [step] at h
    split at h
    · rename_i a b ha hb
      simp only [Option.some.injEq] at h
      subst h
      exact allNonNegative_set i hs (hs b (List.getElem?_mem hb))
    · cases h
  | plus i j =>
    simp only [step] at h
    split at h
    · split at h
      · rename_i m hm
        simp only [Option.some.injEq] at h
        subst h
        exact allNonNegative_append hs (Cpp20_plus_Meter_ok_nonneg hm)
      · cases h
    · cases h
  | minus i j =>
    simp only [step] at h
    split at h
    · split at h
      · rename_i m hm
        simp only [Option.some.injEq] at h
        subst h
        exact allNonNegative_append hs (Cpp20_minus_Meter_ok_nonneg hm)
      · cases h
    · cases h
  | plusAssign i j =>
    simp only [step] at h
    split at h
    · rename_i a b ha hb
      split at h
      · rename_i a1 ha1
        simp only [Option.some.injEq] at h
        subst h
        exact allNonNegative_set i hs
          (Cpp20_plusAssign_returned_nonneg (hs a (List.getElem?_mem ha))
            (hs b (List.getElem?_mem hb)) ha1)
      · cases h
    · cases h
  | swap i j =>
    simp only [step] at h
    split at h
    · rename_i a b ha hb
      simp only [Option.some.injEq] at h
      subst h
      exact allNonNegative_set j
        (allNonNegative_set i hs (hs b (List.getElem?_mem hb)))
        (hs a (List.getElem?_mem ha))
    · cases h

theorem run_keeps_allNonNegative (ops : List MeterOp) :
    ∀ (s s1 : Store), allNonNegative s → (∀ op ∈ ops, op.keepsStored = true) →
      run s ops = some s1 → allNonNegative s1 := by
  induction ops with
  | nil =>
    intro s s1 hs _ h
    simp only [run, Option.some.injEq] at h
    subst h
    exact hs
  | cons op ops ih =>
    intro s s1 hs hops h
    simp only [run] at h
    split at h
    · rename_i s2 hs2
      exact ih s2 s1
        (step_keeps_allNonNegative hs (hops op (List.mem_cons_self op ops)) hs2)
        (fun o ho => hops o (List.mem_cons_of_mem op ho)) h
    · cases h

/-! ### The claims -/

/-- C2 (evaluation of the code): in `StrongType_Cpp20.cpp` the raw-value assignment `m = -3L`
to a `Meter<long>` holding `5` is not rejected; it returns and leaves `-3` stored, because
`operator=` passes `value_` (the old value), not `value`, to `checkValue`. -/
theorem C2_Cpp20_assign_negative_is_stored :
    Cpp20.StrongType.assign (⟨5⟩ : StrongType Meter_long) (-3) = .returned ⟨-3⟩ := by
  decide

/-- C3: in `StrongType_Cpp17.cpp`, the raw-value assignment `m = v` to a `Meter<long>` `m`
holding `p`, with `v < 0`, throws `std::invalid_argument` and `m.get()` is still `p` when the
exception leaves the call; with `v ≥ 0` the assignment returns and `m.get() == v`. -/
theorem C3_Cpp17_assign_validates_candidate (p v : Int) :
    (v < 0 → ∃ m1, Cpp17.StrongType.assign (⟨p⟩ : StrongType Meter_long) v
        = .threw negativeValueDetected m1 ∧ m1.get = p) ∧
    (0 ≤ v → ∃ m1, Cpp17.StrongType.assign (⟨p⟩ : StrongType Meter_long) v = .returned m1
        ∧ m1.get = v) := by
  constructor
  · intro h
    refine ⟨⟨p⟩, ?_, rfl⟩
    simp [Cpp17.StrongType.assign, Cpp17.Positive.checkValue, Meter_hasCheckValue, h]
  · intro h
    refine ⟨⟨v⟩, ?_, rfl⟩
    simp [Cpp17.StrongType.assign, Cpp17.Positive.checkValue, Meter_hasCheckValue,
      not_lt.mpr h]

/-- Witness of C3: a `Meter<long>` holding `7` rejects `m = -1L` and accepts `m = 0L`. -/
theorem C3_Cpp17_assign_validates_candidate_witness :
    ((-1 : Int) < 0 ∧ ∃ m1, Cpp17.StrongType.assign (⟨7⟩ : StrongType Meter_long) (-1)
        = .threw negativeValueDetected m1 ∧ m1.get = 7) ∧
    ((0 : Int) ≤ 0 ∧ ∃ m1, Cpp17.StrongType.assign (⟨7⟩ : StrongType Meter_long) 0
        = .returned m1 ∧ m1.get = 0) :=
  ⟨⟨by decide, (C3_Cpp17_assign_validates_candidate 7 (-1)).1 (by decide)⟩,
   ⟨le_refl 0, (C3_Cpp17_assign_validates_candidate 7 0).2 (le_refl 0)⟩⟩

/-- C4 (counterexample): the sequence `Meter<long> m0{}; Meter<long> m1{ 1L }; m0 -= m1;` of
`StrongType_Cpp20.cpp` is not rejected and leaves `m0` holding `-1`. -/
theorem C4_minusAssign_stores_negative :
    run [] [.defaultConstruct, .construct 1, .minusAssign 0 1] = some [⟨-1⟩, ⟨1⟩] ∧
    ¬ allNonNegative [⟨-1⟩, ⟨1⟩] := by
  decide

/-- C4 (amended): in `StrongType_Cpp20.cpp`, starting from no objects, after any sequence of
default constructions, constructions from raw values, copy assignments, `operator+`,
`operator+=`, `operator-` and `swap` on `Meter<long>` objects in which no operation is
rejected (none throws, none overflows), every object holds a value `≥ 0`. `operator-=` is
not validated: for `0 ≤ p < q` the call `m -= n` on objects holding `p` and `q` returns and
leaves `p - q < 0` stored. -/
theorem C4_validated_operations_keep_nonnegative :
    (∀ (ops : List MeterOp) (s : Store), (∀ op ∈ ops, op.keepsStored = true) →
      run [] ops = some s → allNonNegative s) ∧
    (∀ (p q : Int), 0 ≤ p → p < q → representable 64 q →
      Cpp20.Subtractable.minusAssign (⟨p⟩ : StrongType Meter_long) ⟨q⟩ = .returned ⟨p - q⟩
        ∧ p - q < 0) := by
  constructor
  · intro ops s hops h
    exact run_keeps_allNonNegative ops [] s (fun m hm => by cases hm) hops h
  · intro p q hp hpq hq
    have hr : representable 64 (p - q) := by
      unfold representable at hq ⊢
      constructor <;> omega
    refine ⟨?_, by omega⟩
    simp [Cpp20.Subtractable.minusAssign, T_sub, StrongType.get, Meter, hr]

/-- Witness of C4 (amended): the run `m0{ 100 }; m1{}; m2 = m0 + m1; m1 += m0;
m3 = m2 - m1; swap( m0, m3 ); m2 = m3;` ends with all values non-negative, and
`Meter{ 0 } -= Meter{ 1 }` leaves `-1`. -/
theorem C4_validated_operations_keep_nonnegative_witness :
    allNonNegative [⟨0⟩, ⟨100⟩, ⟨100⟩, ⟨100⟩] ∧
    (Cpp20.Subtractable.minusAssign (⟨0⟩ : StrongType Meter_long) ⟨1⟩ = .returned ⟨0 - 1⟩
      ∧ (0 : Int) - 1 < 0) :=
  ⟨C4_validated_operations_keep_nonnegative.1
      [.construct 100, .defaultConstruct, .plus 0 1, .plusAssign 1 0, .minus 2 1,
        .swap 0 3, .copyAssign 2 3]
      [⟨0⟩, ⟨100⟩, ⟨100⟩, ⟨100⟩] (by decide) (by decide),
   C4_validated_operations_keep_nonnegative.2 0 1 (by decide) (by decide) (by decide)⟩

/-- C5: without a validation skill, construction from `v` followed by `get()` returns `v`:
for `Kilometer<int>` of `StrongType_Cpp20.cpp` the constructor produces an object whose
`get()` is `v`, and so does the constructor of `StrongType<int,MeterTag>` of
`StrongType_Assembly.cpp`. -/
theorem C5_construct_get_roundtrip (v : Int) :
    (∃ k, Cpp20.StrongType.ctor Kilometer_int v = .ok k ∧ k.get = v) ∧
    (Assembly.StrongType.ctor v).get = v :=
  ⟨⟨⟨v⟩, Cpp20_ctor_Kilometer 32 v, rfl⟩, rfl⟩

/-- C6: for `Kilometer<int>` of `StrongType_Cpp20.cpp` and all `a`, `b` whose sum is
representable in `int`, `Kilometer<int>{ a } + Kilometer<int>{ b }` yields an object whose
`get()` is `a + b`. -/
theorem C6_Kilometer_plus (a b : Int) (h : representable 32 (a + b)) :
    ∃ k, Cpp20.plusExpr Kilometer_int a b = .ok k ∧ k.get = a + b := by
  refine ⟨⟨a + b⟩, ?_, rfl⟩
  have h1 : representable (Kilometer 32).bits (a + b) := h
  simp [Cpp20.plusExpr, Cpp20.Addable.plus, T_add, StrongType.get, Cpp20_ctor_Kilometer,
    bind, Except.bind, h1, noexcept_true_ok]

/-- Witness of C6: `Kilometer<int>{ 56 } + Kilometer<int>{ 44 }` holds `100`. -/
theorem C6_Kilometer_plus_witness :
    representable 32 (56 + 44) ∧
    ∃ k, Cpp20.plusExpr Kilometer_int 56 44 = .ok k ∧ k.get = 56 + 44 :=
  ⟨by decide, C6_Kilometer_plus 56 44 (by decide)⟩

/-- C7: for `Kilometer<int>` of `StrongType_Cpp20.cpp` and all `a`, `b` whose difference is
representable in `int`, negative differences included,
`Kilometer<int>{ a } - Kilometer<int>{ b }` yields an object whose `get()` is `a - b`. -/
theorem C7_Kilometer_minus (a b : Int) (h : representable 32 (a - b)) :
    ∃ k, Cpp20.minusExpr Kilometer_int a b = .ok k ∧ k.get = a - b := by
  refine ⟨⟨a - b⟩, ?_, rfl⟩
  have h1 : representable (Kilometer 32).bits (a - b) := h
  simp [Cpp20.minusExpr, Cpp20.Subtractable.minus, T_sub, StrongType.get,
    Cpp20_ctor_Kilometer, bind, Except.bind, h1, noexcept_true_ok]

/-- Witness of C7: `Kilometer<int>{ 50 } - Kilometer<int>{ 100 }` holds `-50`. -/
theorem C7_Kilometer_minus_witness :
    representable 32 (50 - 100) ∧
    ∃ k, Cpp20.minusExpr Kilometer_int 50 100 = .ok k ∧ k.get = 50 - 100 :=
  ⟨by decide, C7_Kilometer_minus 50 100 (by decide)⟩

/-- C8 (counterexample): `Meter<long>{ 0L } - Meter<long>{ 1L }` yields no object: the
constructor of the result throws `std::invalid_argument` inside `operator-`, which is
`noexcept`, so `std::terminate` is called. -/
theorem C8_Meter_minus_rejects_negative_difference :
    Cpp20.minusExpr Meter_long 0 1 = .error (.terminate negativeValueDetected) ∧
    ¬ ∃ m, Cpp20.minusExpr Meter_long 0 1 = .ok m := by
  have h : Cpp20.minusExpr Meter_long 0 1 = .error (.terminate negativeValueDetected) := rfl
  refine ⟨h, ?_⟩
  rintro ⟨m, hm⟩
  rw [h] at hm
  cases hm

/-- C8 (amended): for `Meter<long>` of `StrongType_Cpp20.cpp` and all non-negative `a`, `b`
of type `long`, `Meter<long>{ a } - Meter<long>{ b }` yields an object whose `get()` is
`a - b` when `b ≤ a`; when `a < b` it yields no object: the constructor of the result
rejects the negative difference (`Positive::checkValue` throws `std::invalid_argument`), and
because `operator-` is `noexcept` the exception ends in `std::terminate`. -/
theorem C8_Meter_minus (a b : Int) (ha : 0 ≤ a) (hb : 0 ≤ b)
    (hra : representable 64 a) (hrb : representable 64 b) :
    (b ≤ a → ∃ m, Cpp20.minusExpr Meter_long a b = .ok m ∧ m.get = a - b) ∧
    (a < b →
      Cpp20.StrongType.ctor Meter_long (a - b)
        = .error (.invalid_argument negativeValueDetected) ∧
      Cpp20.minusExpr Meter_long a b = .error (.terminate negativeValueDetected)) := by
  have hr : representable (Meter 64).bits (a - b) := by
    unfold representable at hra hrb ⊢
    simp only [Meter]
    constructor <;> omega
  have hexpr : Cpp20.minusExpr Meter_long a b
      = noexcept_true (Cpp20.StrongType.ctor Meter_long (a - b)) := by
    simp [Cpp20.minusExpr, Cpp20.Subtractable.minus, T_sub, StrongType.get,
      Cpp20_ctor_Meter, bind, Except.bind, hr, not_lt.mpr ha, not_lt.mpr hb]
  constructor
  · intro hab
    refine ⟨⟨a - b⟩, ?_, rfl⟩
    have hn : ¬ (a - b < 0) := by omega
    rw [hexpr, Cpp20_ctor_Meter, if_neg hn]
    rfl
  · intro hab
    have hn : a - b < 0 := by omega
    have hctor : Cpp20.StrongType.ctor Meter_long (a - b)
        = .error (.invalid_argument negativeValueDetected) := by
      rw [Cpp20_ctor_Meter, if_pos hn]
    refine ⟨hctor, ?_⟩
    rw [hexpr, hctor]
    rfl

/-- Witness of C8 (amended): `Meter<long>{ 150L } - Meter<long>{ 108L }` holds `42`, and
`Meter<long>{ 108L } - Meter<long>{ 150L }` ends in `std::terminate`. -/
theorem C8_Meter_minus_witness :
    ((108 : Int) ≤ 150 ∧ ∃ m, Cpp20.minusExpr Meter_long 150 108 = .ok m
      ∧ m.get = 150 - 108) ∧
    ((108 : Int) < 150 ∧ Cpp20.minusExpr Meter_long 108 150
      = .error (.terminate negativeValueDetected)) :=
  ⟨⟨by decide,
      (C8_Meter_minus 150 108 (by decide) (by decide) (by decide) (by decide)).1
        (by decide)⟩,
   ⟨by decide,
      ((C8_Meter_minus 108 150 (by decide) (by decide) (by decide) (by decide)).2
        (by decide)).2⟩⟩

/-- C9: the example scenario on `Meter<long>`, in `StrongType_Cpp20.cpp` and in
`StrongType_Cpp17.cpp`: with `m1 = Meter<long>{ 100 }` and `m2 = Meter<long>{ 50 }`,
`m1 + m2` holds `150` and compares equal to `Meter<long>{ 150 }`;
`( m1 + m2 ) - Meter<long>{ 108 }` holds `42`; and `m3 = m1 + m2` followed by
`m3 -= Meter<long>{ 108 }` leaves `m3` holding `42`. The last conjunct is the block of
`main` in `StrongType_Cpp20.cpp`, where `m2` is default-constructed and then assigned
`50L`. -/
theorem C9_example_scenario :
    (Cpp20.plusExpr Meter_long 100 50 = .ok ⟨150⟩ ∧
      (do let s ← Cpp20.plusExpr Meter_long 100 50
          let r ← Cpp20.StrongType.ctor Meter_long 150
          pure (Cpp20.EqualityComparable.eq s r)) = .ok true ∧
      (do let s ← Cpp20.plusExpr Meter_long 100 50
          let r ← Cpp20.StrongType.ctor Meter_long 108
          Cpp20.Subtractable.minus s r) = .ok ⟨42⟩ ∧
      (do let m3 ← Cpp20.plusExpr Meter_long 100 50
          let r ← Cpp20.StrongType.ctor Meter_long 108
          pure (Cpp20.Subtractable.minusAssign m3 r)) = .ok (.returned ⟨42⟩)) ∧
    (Cpp17.plusExpr Meter_long 100 50 = .ok ⟨150⟩ ∧
      (do let s ← Cpp17.plusExpr Meter_long 100 50
          let r ← Cpp17.StrongType.ctor Meter_long 150
          pure (Cpp17.EqualityComparable.eq s r)) = .ok true ∧
      (do let s ← Cpp17.plusExpr Meter_long 100 50
          let r ← Cpp17.StrongType.ctor Meter_long 108
          Cpp17.Subtractable.minus s r) = .ok ⟨42⟩ ∧
      (do let m3 ← Cpp17.plusExpr Meter_long 100 50
          let r ← Cpp17.StrongType.ctor Meter_long 108
          pure (Cpp17.Subtractable.minusAssign m3 r)) = .ok (.returned ⟨42⟩)) ∧
    run [] [.construct 100, .defaultConstruct, .assignRaw 1 50, .plus 0 1, .construct 108,
      .minusAssign 2 3] = some [⟨100⟩, ⟨50⟩, ⟨42⟩, ⟨108⟩] :=
  ⟨⟨rfl, rfl, rfl, rfl⟩, ⟨rfl, rfl, rfl, rfl⟩, by decide⟩

/-- C10: with `EqualityComparable` composed, `StrongType{ a } == StrongType{ b }` evaluates,
and is true if and only if `a == b`: for `Kilometer<int>` and all `a`, `b`, and for
`Meter<long>` and all non-negative `a`, `b`, in `StrongType_Cpp20.cpp` and in
`StrongType_Cpp17.cpp`. -/
theorem C10_equality_reflects_value (a b : Int) :
    (∃ r, Cpp20.eqExpr Kilometer_int a b = .ok r ∧ (r = true ↔ a = b)) ∧
    (∃ r, Cpp17.eqExpr Kilometer_int a b = .ok r ∧ (r = true ↔ a = b)) ∧
    (0 ≤ a → 0 ≤ b →
      (∃ r, Cpp20.eqExpr Meter_long a b = .ok r ∧ (r = true ↔ a = b)) ∧
      (∃ r, Cpp17.eqExpr Meter_long a b = .ok r ∧ (r = true ↔ a = b))) := by
  refine ⟨⟨decide (a = b), ?_, by simp⟩, ⟨decide (a = b), ?_, by simp⟩, fun ha hb =>
    ⟨⟨decide (a = b), ?_, by simp⟩, ⟨decide (a = b), ?_, by simp⟩⟩⟩
  · simp [Cpp20.eqExpr, Cpp20.EqualityComparable.eq, StrongType.get, Cpp20_ctor_Kilometer,
      bind, Except.bind, pure, Except.pure]
  · simp [Cpp17.eqExpr, Cpp17.EqualityComparable.eq, StrongType.get, Cpp17_ctor_Kilometer,
      bind, Except.bind, pure, Except.pure]
  · simp [Cpp20.eqExpr, Cpp20.EqualityComparable.eq, StrongType.get, Cpp20_ctor_Meter,
      bind, Except.bind, pure, Except.pure, not_lt.mpr ha, not_lt.mpr hb]
  · simp [Cpp17.eqExpr, Cpp17.EqualityComparable.eq, StrongType.get, Cpp17_ctor_Meter,
      bind, Except.bind, pure, Except.pure, not_lt.mpr ha, not_lt.mpr hb]

/-- Witness of C10: `Meter<long>{ 150 } == Meter<long>{ 150 }` evaluates to a value that is
true exactly when `150 = 150`. -/
theorem C10_equality_reflects_value_witness :
    (0 : Int) ≤ 150 ∧
    (∃ r, Cpp20.eqExpr Meter_long 150 150 = .ok r ∧ (r = true ↔ (150 : Int) = 150)) ∧
    (∃ r, Cpp17.eqExpr Meter_long 150 150 = .ok r ∧ (r = true ↔ (150 : Int) = 150)) :=
  ⟨by decide, (C10_equality_reflects_value 150 150).2.2 (by decide) (by decide)⟩

/-! ### Shared lemmas on conversions and compound assignment -/

theorem static_cast_signed_64_of_le (m : Nat) (h : m ≤ 9223372036854775807) :
    static_cast_signed 64 m = (m : Int) := by
  unfold static_cast_signed
  norm_num
  omega

theorem static_cast_signed_64_of_gt (m : Nat) (h : 9223372036854775807 < m)
    (hm : m < 18446744073709551616) :
    static_cast_signed 64 m < 0 := by
  unfold static_cast_signed
  norm_num
  split <;> omega

theorem static_cast_signed_32_of_le (m : Nat) (h : m ≤ 2147483647) :
    static_cast_signed 32 m = (m : Int) := by
  unfold static_cast_signed
  norm_num
  omega

theorem static_cast_signed_32_spec (m : Nat) :
    representable 32 (static_cast_signed 32 m) ∧
      (4294967296 : Int) ∣ ((m : Int) - static_cast_signed 32 m) := by
  unfold static_cast_signed representable
  norm_num
  split <;> omega

theorem Cpp20_minusAssign_value {I : Inst} (p q : Int) (hr : representable I.bits (p - q)) :
    Cpp20.Subtractable.minusAssign (⟨p⟩ : StrongType I) ⟨q⟩ = .returned ⟨p - q⟩ := by
  simp [Cpp20.Subtractable.minusAssign, T_sub, StrongType.get, hr]

theorem Cpp20_plusAssign_value {I : Inst} (p q : Int) (hr : representable I.bits (p + q)) :
    Cpp20.Addable.plusAssign (⟨p⟩ : StrongType I) ⟨q⟩ = .returned ⟨p + q⟩ := by
  simp [Cpp20.Addable.plusAssign, T_add, StrongType.get, hr]

/-! ### The claims, continued -/

/-- C11: in `StrongType_Cpp17.cpp`, for all `Kilometer<int>` values `x`, `y`, `x != y` is the
negation of `x == y`, and it holds if and only if `x.get() != y.get()`; and
`Kilometer<int>{ 100 } - Kilometer<int>{ 50 } != Kilometer<int>{ 150 }` (line 365) is true. -/
theorem C11_Cpp17_ne_is_negated_eq (x y : StrongType Kilometer_int) :
    Cpp17.EqualityComparable.ne x y = !(Cpp17.EqualityComparable.eq x y) ∧
    (Cpp17.EqualityComparable.ne x y = true ↔ x.get ≠ y.get) ∧
    (do let d ← Cpp17.minusExpr Kilometer_int 100 50
        let r ← Cpp17.StrongType.ctor Kilometer_int 150
        pure (Cpp17.EqualityComparable.ne d r)) = .ok true := by
  refine ⟨rfl, ?_, rfl⟩
  simp [Cpp17.EqualityComparable.ne, Cpp17.EqualityComparable.eq]

/-- C12: for all `a`, `b` (equal values included) and objects `x` holding `a` and `y` holding
`b` of one instantiation, after `x.swap( y )` or the free `swap( x, y )`, `x.get() == b` and
`y.get() == a`, in `StrongType_Cpp20.cpp` and in `Tasks/2_Safe_Cpp/StrongType2.cpp`; and when
`a` and `b` both pass `Positive::checkValue`, so do both values after the swap. -/
theorem C12_swap_exchanges_values (I : Inst) (a b : Int) :
    ((Cpp20.StrongType.swap (⟨a⟩ : StrongType I) ⟨b⟩).1.get = b ∧
      (Cpp20.StrongType.swap (⟨a⟩ : StrongType I) ⟨b⟩).2.get = a) ∧
    ((Cpp20.swap (⟨a⟩ : StrongType I) ⟨b⟩).1.get = b ∧
      (Cpp20.swap (⟨a⟩ : StrongType I) ⟨b⟩).2.get = a) ∧
    ((StrongType2.StrongType.swap (⟨a⟩ : StrongType I) ⟨b⟩).1.get = b ∧
      (StrongType2.StrongType.swap (⟨a⟩ : StrongType I) ⟨b⟩).2.get = a) ∧
    ((StrongType2.swap (⟨a⟩ : StrongType I) ⟨b⟩).1.get = b ∧
      (StrongType2.swap (⟨a⟩ : StrongType I) ⟨b⟩).2.get = a) ∧
    (Cpp20.Positive.checkValue a = .ok () → Cpp20.Positive.checkValue b = .ok () →
      Cpp20.Positive.checkValue
          (Cpp20.StrongType.swap (⟨a⟩ : StrongType Meter_long) ⟨b⟩).1.get = .ok () ∧
      Cpp20.Positive.checkValue
          (Cpp20.StrongType.swap (⟨a⟩ : StrongType Meter_long) ⟨b⟩).2.get = .ok ()) :=
  ⟨⟨rfl, rfl⟩, ⟨rfl, rfl⟩, ⟨rfl, rfl⟩, ⟨rfl, rfl⟩, fun ha hb => ⟨hb, ha⟩⟩

/-- Witness of C12: swapping `Meter<long>` objects holding `3` and `3`, both valid. -/
theorem C12_swap_exchanges_values_witness :
    Cpp20.Positive.checkValue 3 = .ok () ∧
    Cpp20.Positive.checkValue
        (Cpp20.StrongType.swap (⟨3⟩ : StrongType Meter_long) ⟨3⟩).1.get = .ok () ∧
    Cpp20.Positive.checkValue
        (Cpp20.StrongType.swap (⟨3⟩ : StrongType Meter_long) ⟨3⟩).2.get = .ok () :=
  ⟨rfl, (C12_swap_exchanges_values Meter_long 3 3).2.2.2.2 rfl rfl⟩

/-- C13: a default-constructed `StrongType` holds zero: `Kilometer<int>{}.get() == 0` and
`Meter<long>{}.get() == 0`, and zero passes `Positive::checkValue`. -/
theorem C13_default_holds_zero :
    (Cpp20.StrongType.default Kilometer_int).get = 0 ∧
    (Cpp20.StrongType.default Meter_long).get = 0 ∧
    Cpp20.Positive.checkValue (Cpp20.StrongType.default Meter_long).get = .ok () :=
  ⟨rfl, rfl, rfl⟩

/-- C14: for `Kilometer<int>` of `StrongType_Cpp20.cpp` no `checkValue` member is found, and
for every `v`, negative values included, the construction `Kilometer<int>{ v }` succeeds and
the raw-value assignment `k = v` returns, whatever `k` held. -/
theorem C14_Kilometer_construct_assign_total (v : Int) :
    Kilometer_int.hasCheckValue = false ∧
    (∃ k, Cpp20.StrongType.ctor Kilometer_int v = .ok k) ∧
    (∀ k : StrongType Kilometer_int, ∃ k1, Cpp20.StrongType.assign k v = .returned k1) := by
  refine ⟨Kilometer_hasCheckValue 32, ⟨⟨v⟩, Cpp20_ctor_Kilometer 32 v⟩, fun k => ⟨⟨v⟩, ?_⟩⟩
  simp [Cpp20.StrongType.assign, Kilometer_hasCheckValue]

/-- C15: for every `Kilometer<int>` `k` and every `v`, after the raw-value assignment `k = v`
of `StrongType_Cpp20.cpp`, `k.get() == v`; and `Kilometer<int> km2{}; km2 = 44;` leaves
`km2.get() == 44`. -/
theorem C15_Kilometer_assign_stores (k : StrongType Kilometer_int) (v : Int) :
    (∃ k1, Cpp20.StrongType.assign k v = .returned k1 ∧ k1.get = v) ∧
    Cpp20.StrongType.assign (Cpp20.StrongType.default Kilometer_int) 44 = .returned ⟨44⟩ := by
  refine ⟨⟨⟨v⟩, ?_, rfl⟩, by decide⟩
  simp [Cpp20.StrongType.assign, Kilometer_hasCheckValue]

/-- C16: for `Kilometer<int>` of `StrongType_Cpp20.cpp` and distinct objects `x` holding `a`,
`y` holding `b`: when `a + b` is representable, `x += y` returns the updated `x`, which holds
`a + b`, and `y` still holds `b`; when `a - b` is representable, `x -= y` returns the updated
`x`, which holds `a - b`, and `y` still holds `b`. -/
theorem C16_Kilometer_compound_assignment (a b : Int) :
    (representable 32 (a + b) →
      Cpp20.Addable.plusAssign (⟨a⟩ : StrongType Kilometer_int) ⟨b⟩ = .returned ⟨a + b⟩ ∧
      Cpp20.plusAssignStmt (⟨a⟩ : StrongType Kilometer_int) ⟨b⟩
        = .returned (⟨a + b⟩, ⟨b⟩)) ∧
    (representable 32 (a - b) →
      Cpp20.Subtractable.minusAssign (⟨a⟩ : StrongType Kilometer_int) ⟨b⟩
        = .returned ⟨a - b⟩ ∧
      Cpp20.minusAssignStmt (⟨a⟩ : StrongType Kilometer_int) ⟨b⟩
        = .returned (⟨a - b⟩, ⟨b⟩)) := by
  constructor
  · intro h
    have h1 := Cpp20_plusAssign_value (I := Kilometer_int) a b h
    exact ⟨h1, by simp [Cpp20.plusAssignStmt, h1]⟩
  · intro h
    have h1 := Cpp20_minusAssign_value (I := Kilometer_int) a b h
    exact ⟨h1, by simp [Cpp20.minusAssignStmt, h1]⟩

/-- Witness of C16: the block of `main`: `km3 = Kilometer<int>{ 56 } + km2` with `km2`
holding `44` gives `100`, and `km3 -= Kilometer<int>{ 58 }` leaves `42`; also `56 += 44`. -/
theorem C16_Kilometer_compound_assignment_witness :
    (representable 32 (56 + 44) ∧
      Cpp20.plusAssignStmt (⟨56⟩ : StrongType Kilometer_int) ⟨44⟩
        = .returned (⟨56 + 44⟩, ⟨44⟩)) ∧
    (representable 32 (100 - 58) ∧
      Cpp20.minusAssignStmt (⟨100⟩ : StrongType Kilometer_int) ⟨58⟩
        = .returned (⟨100 - 58⟩, ⟨58⟩)) ∧
    (do let km3 ← Cpp20.plusExpr Kilometer_int 56 44
        let r ← Cpp20.StrongType.ctor Kilometer_int 58
        pure (Cpp20.Subtractable.minusAssign km3 r)) = .ok (.returned ⟨42⟩) :=
  ⟨⟨by decide, ((C16_Kilometer_compound_assignment 56 44).1 (by decide)).2⟩,
   ⟨by decide, ((C16_Kilometer_compound_assignment 100 58).2 (by decide)).2⟩, rfl⟩

/-- C17 (counterexample): in `StrongType_Cpp20.cpp`, with `Meter<long>` `m` holding `0` and
`n` holding `1`, the call `m -= n` is not rejected: it returns and `m` holds `-1`. -/
theorem C17_minusAssign_bypasses_checkValue :
    Cpp20.Subtractable.minusAssign (⟨0⟩ : StrongType Meter_long) ⟨1⟩ = .returned ⟨-1⟩ ∧
    ¬ ∃ what m1, Cpp20.Subtractable.minusAssign (⟨0⟩ : StrongType Meter_long) ⟨1⟩
        = .threw what m1 := by
  have h0 : Cpp20.Subtractable.minusAssign (⟨0⟩ : StrongType Meter_long) ⟨1⟩
      = .returned ⟨-1⟩ := by decide
  refine ⟨h0, ?_⟩
  rintro ⟨what, m1, h⟩
  rw [h0] at h
  cases h

/-- C17 (amended): in `StrongType_Cpp20.cpp`, `operator-=` runs no validation hook: for
`Meter<long>` `m` holding `p` and `n` holding `q` with `0 ≤ p < q`, the call `m -= n` returns
and `m.get()` is `p - q`, a negative value. -/
theorem C17_minusAssign_is_not_validated (p q : Int) (hp : 0 ≤ p) (hpq : p < q)
    (hq : representable 64 q) :
    ∃ m1, Cpp20.Subtractable.minusAssign (⟨p⟩ : StrongType Meter_long) ⟨q⟩ = .returned m1 ∧
      m1.get = p - q ∧ m1.get < 0 := by
  have hr : representable Meter_long.bits (p - q) := by
    unfold representable at hq ⊢
    simp only [Meter]
    constructor <;> omega
  refine ⟨⟨p - q⟩, Cpp20_minusAssign_value p q hr, rfl, ?_⟩
  simp only [StrongType.get]
  omega

/-- Witness of C17 (amended): `Meter<long>{ 50 } -= Meter<long>{ 108 }` leaves `-58`. -/
theorem C17_minusAssign_is_not_validated_witness :
    ∃ m1, Cpp20.Subtractable.minusAssign (⟨50⟩ : StrongType Meter_long) ⟨108⟩
        = .returned m1 ∧ m1.get = 50 - 108 ∧ m1.get < 0 :=
  C17_minusAssign_is_not_validated 50 108 (by decide) (by decide) (by decide)

/-- C18 (counterexample): in `StrongType_Cpp20.cpp`, `Meter<int> mi{}; mi -= Meter<int>{ 1 };`
leaves `mi` holding `-1`, and `Meter<long>{ mi }` then produces an object holding `-1`. -/
theorem C18_ctorConv_accepts_negative :
    Cpp20.Subtractable.minusAssign (Cpp20.StrongType.default Meter_int) ⟨1⟩
      = .returned ⟨-1⟩ ∧
    (Cpp20.StrongType.ctorConv 64 (⟨-1⟩ : StrongType Meter_int)).get = -1 ∧
    Cpp20.Positive.checkValue (Cpp20.StrongType.ctorConv 64 (⟨-1⟩ : StrongType Meter_int)).get
      = .error (.invalid_argument negativeValueDetected) :=
  ⟨by decide, rfl, rfl⟩

/-- C18 (amended): in `StrongType_Cpp20.cpp`, the converting constructor between same-tag
`StrongType`s of different value type runs no validation hook: constructing a `Meter<long>`
from a `Meter<int>` holding `s` always produces an object, whose `get()` is `s`; so for
`s ≥ 0` the result holds `s`, and a negative `s` is carried over. -/
theorem C18_ctorConv_copies_value (s : Int) :
    (Cpp20.StrongType.ctorConv 64 (⟨s⟩ : StrongType Meter_int)).get = s ∧
    (s < 0 → (Cpp20.StrongType.ctorConv 64 (⟨s⟩ : StrongType Meter_int)).get < 0) :=
  ⟨rfl, fun h => h⟩

/-- Witness of C18 (amended): a `Meter<int>` holding `-7` converts to a `Meter<long>` holding
`-7`. -/
theorem C18_ctorConv_copies_value_witness :
    (-7 : Int) < 0 ∧ (Cpp20.StrongType.ctorConv 64 (⟨-7⟩ : StrongType Meter_int)).get < 0 :=
  ⟨by decide, (C18_ctorConv_copies_value (-7)).2 (by decide)⟩

/-- C19: the literal operator `_m` of `StrongType_Cpp20.cpp`, for every unsigned 64-bit `m`
(`m < 2^64 = 18446744073709551616`): when `m ≤ 2^63 - 1 = 9223372036854775807` it yields a
`Meter<long>` whose `get()` is `m`; otherwise `static_cast<long>(m)` is negative, the
constructor is rejected by `Positive::checkValue` and the operator yields no object (the
exception meets `noexcept`); in no case does it yield a `Meter<long>` holding a negative
value. -/
theorem C19_operator_m_validates (m : Nat) (hm : m < 18446744073709551616) :
    (m ≤ 9223372036854775807 → ∃ r, Cpp20.operator_m m = .value r ∧ r.get = (m : Int)) ∧
    (9223372036854775807 < m →
      static_cast_signed 64 m < 0 ∧
      Cpp20.StrongType.ctor Meter_long (static_cast_signed 64 m)
        = .error (.invalid_argument negativeValueDetected) ∧
      Cpp20.operator_m m = .terminate negativeValueDetected) ∧
    (∀ r, Cpp20.operator_m m = .value r → 0 ≤ r.get) := by
  have hle : m ≤ 9223372036854775807 → Cpp20.operator_m m = .value ⟨(m : Int)⟩ := by
    intro h
    have hn : ¬ ((m : Int) < 0) := by omega
    unfold Cpp20.operator_m
    rw [static_cast_signed_64_of_le m h, Cpp20_ctor_Meter, if_neg hn]
    rfl
  have hgt : 9223372036854775807 < m →
      Cpp20.StrongType.ctor Meter_long (static_cast_signed 64 m)
        = .error (.invalid_argument negativeValueDetected) := by
    intro h
    rw [Cpp20_ctor_Meter, if_pos (static_cast_signed_64_of_gt m h hm)]
  have hterm : 9223372036854775807 < m →
      Cpp20.operator_m m = .terminate negativeValueDetected := by
    intro h
    unfold Cpp20.operator_m
    rw [hgt h]
    rfl
  refine ⟨fun h => ⟨⟨(m : Int)⟩, hle h, rfl⟩,
    fun h => ⟨static_cast_signed_64_of_gt m h hm, hgt h, hterm h⟩, ?_⟩
  intro r hr
  rcases le_or_lt m 9223372036854775807 with h | h
  · rw [hle h] at hr
    cases hr
    exact Int.ofNat_nonneg m
  · rw [hterm h] at hr
    cases hr

/-- Witness of C19: `100_m` holds `100`; `9223372036854775808_m` yields no object. -/
theorem C19_operator_m_validates_witness :
    (100 ≤ 9223372036854775807 ∧
      ∃ r, Cpp20.operator_m 100 = .value r ∧ r.get = ((100 : Nat) : Int)) ∧
    (9223372036854775807 < 9223372036854775808 ∧
      Cpp20.operator_m 9223372036854775808 = .terminate negativeValueDetected) :=
  ⟨⟨by decide, (C19_operator_m_validates 100 (by decide)).1 (by decide)⟩,
   ⟨by decide,
    ((C19_operator_m_validates 9223372036854775808 (by decide)).2.1 (by decide)).2.2⟩⟩

/-- C20 (counterexample): `2147483648_km` yields a `Kilometer<int>` holding `-2147483648`,
not `2147483648`, in `StrongType_Cpp20.cpp` and in `Tasks/2_Safe_Cpp/StrongType2.cpp`. -/
theorem C20_operator_km_narrows :
    Cpp20.operator_km 2147483648 = .value ⟨-2147483648⟩ ∧
    StrongType2.operator_km 2147483648 = .value ⟨-2147483648⟩ ∧
    (-2147483648 : Int) ≠ ((2147483648 : Nat) : Int) := by
  decide

/-- C20 (amended): the literal operator `_km` (`StrongType_Cpp20.cpp` and
`Tasks/2_Safe_Cpp/StrongType2.cpp`) always yields a `Kilometer<int>`; for every unsigned
64-bit `m ≤ 2^31 - 1 = 2147483647` its `get()` is `m`; for larger `m` the explicit
`static_cast<int>(m)` narrows: the value `v` held is the value of `int` congruent to `m` modulo
`2^32 = 4294967296`. -/
theorem C20_operator_km_value (m : Nat) :
    (m ≤ 2147483647 →
      (∃ k, Cpp20.operator_km m = .value k ∧ k.get = (m : Int)) ∧
      (∃ k, StrongType2.operator_km m = .value k ∧ k.get = (m : Int))) ∧
    (∃ v : Int, Cpp20.operator_km m = .value ⟨v⟩ ∧ StrongType2.operator_km m = .value ⟨v⟩ ∧
      representable 32 v ∧ (4294967296 : Int) ∣ ((m : Int) - v)) := by
  have h20 : Cpp20.operator_km m = .value ⟨static_cast_signed 32 m⟩ := by
    unfold Cpp20.operator_km
    rw [Cpp20_ctor_Kilometer]
    rfl
  have h2 : StrongType2.operator_km m = .value ⟨static_cast_signed 32 m⟩ := rfl
  constructor
  · intro h
    rw [h20, h2, static_cast_signed_32_of_le m h]
    exact ⟨⟨⟨(m : Int)⟩, rfl, rfl⟩, ⟨⟨(m : Int)⟩, rfl, rfl⟩⟩
  · exact ⟨static_cast_signed 32 m, h20, h2, static_cast_signed_32_spec m⟩

/-- Witness of C20 (amended): `56_km` holds `56` in both files. -/
theorem C20_operator_km_value_witness :
    56 ≤ 2147483647 ∧
    (∃ k, Cpp20.operator_km 56 = .value k ∧ k.get = ((56 : Nat) : Int)) ∧
    (∃ k, StrongType2.operator_km 56 = .value k ∧ k.get = ((56 : Nat) : Int)) :=
  ⟨by decide, (C20_operator_km_value 56).1 (by decide)⟩

/-! ### Shared lemmas on the country loops -/

theorem find_pos_le (tmp : List Country) (country : Country) :
    find_pos tmp country ≤ tmp.length := by
  induction tmp with
  | nil => simp [find_pos]
  | cons c rest ih =>
    simp only [find_pos]
    split
    · simp only [List.length_cons]
      omega
    · omega

theorem length_insert_country (tmp : List Country) (country : Country) :
    (insert_country tmp country).length = tmp.length + 1 := by
  have h := find_pos_le tmp country
  simp only [insert_country, List.length_append, List.length_cons, List.length_take,
    List.length_drop]
  omega

theorem length_foldl_insert_country (cs : List Country) :
    ∀ tmp : List Country, (cs.foldl insert_country tmp).length = tmp.length + cs.length := by
  induction cs with
  | nil => intro tmp; simp
  | cons c rest ih =>
    intro tmp
    simp only [List.foldl_cons, List.length_cons]
    rw [ih, length_insert_country]
    omega

theorem foldl_continents_eq (continents : List Continent) :
    ∀ tmp : List Country,
      continents.foldl (fun tmp continent => continent.countries.foldl insert_country tmp) tmp
        = (all_countries continents).foldl insert_country tmp := by
  induction continents with
  | nil => intro tmp; rfl
  | cons c rest ih =>
    intro tmp
    simp only [List.foldl_cons, all_countries, List.foldl_append]
    exact ih _

theorem insertion_phase_eq (continents : List Continent) :
    insertion_phase continents = (all_countries continents).foldl insert_country [] :=
  foldl_continents_eq continents []

theorem length_insertion_phase (continents : List Continent) :
    (insertion_phase continents).length = (all_countries continents).length := by
  rw [insertion_phase_eq, length_foldl_insert_country]
  simp

theorem inner_loop_in_bounds (i : Nat) :
    ∀ (remaining j : Nat) (countries : List Country), i - 1 < countries.length →
      j + remaining ≤ countries.length →
      ∃ out, inner_loop i remaining j countries = some out ∧ out.length = countries.length := by
  intro remaining
  induction remaining with
  | zero =>
    intro j countries _ _
    exact ⟨countries, rfl, rfl⟩
  | succ remaining ih =>
    intro j countries hi hj
    have hj1 : j < countries.length := by omega
    simp only [inner_loop, List.getElem?_eq_getElem hi, List.getElem?_eq_getElem hj1]
    split
    · obtain ⟨out, hout, hlen⟩ := ih (j + 1)
        ((countries.set (i - 1) countries[j]).set j countries[i - 1])
        (by simp only [List.length_set]; exact hi) (by simp only [List.length_set]; omega)
      exact ⟨out, hout, by rw [hlen]; simp only [List.length_set]⟩
    · exact ih (j + 1) countries hi (by omega)

theorem outer_loop_in_bounds (bound : Nat) :
    ∀ (remaining i : Nat) (countries : List Country), 1 ≤ i → bound ≤ countries.length →
      (remaining = 0 ∨ i + remaining ≤ bound) →
      ∃ out, outer_loop bound remaining i countries = some out ∧
        out.length = countries.length := by
  intro remaining
  induction remaining with
  | zero =>
    intro i countries _ _ _
    exact ⟨countries, rfl, rfl⟩
  | succ remaining ih =>
    intro i countries hi hb hr
    have hr1 : i + (remaining + 1) ≤ bound := by
      rcases hr with h | h
      · omega
      · exact h
    have hi1 : i - 1 < countries.length := by omega
    obtain ⟨mid, hmid, hmidlen⟩ := inner_loop_in_bounds i (bound - i) i countries hi1 (by omega)
    obtain ⟨out, hout, hlen⟩ := ih (i + 1) mid (by omega) (by omega) (Or.inr (by omega))
    refine ⟨out, ?_, by rw [hlen, hmidlen]⟩
    simp only [outer_loop, List.getElem?_eq_getElem hi1, hmid]
    exact hout

theorem reorder_in_bounds (bound : Nat) (countries : List Country)
    (hb : bound ≤ countries.length) :
    ∃ out, reorder bound countries = some out ∧ out.length = countries.length := by
  unfold reorder
  exact outer_loop_in_bounds bound (bound - 1) 1 countries (le_refl 1) hb (by omega)

theorem find_pos_of_all_gt (tmp : List Country) (country : Country)
    (h : ∀ c ∈ tmp, c.area > country.area) : find_pos tmp country = tmp.length := by
  induction tmp with
  | nil => rfl
  | cons c rest ih =>
    have hc : c.area > country.area := h c (List.mem_cons_self c rest)
    simp only [find_pos, hc, if_true, List.length_cons]
    rw [ih (fun x hx => h x (List.mem_cons_of_mem c hx))]

theorem insert_country_of_all_gt (tmp : List Country) (country : Country)
    (h : ∀ c ∈ tmp, c.area > country.area) : insert_country tmp country = tmp ++ [country] := by
  simp [insert_country, find_pos_of_all_gt tmp country h]

theorem foldl_insert_country_of_decreasing (rest : List Country) :
    ∀ tmp : List Country, List.Pairwise (fun a b : Country => a.area > b.area) (tmp ++ rest) →
      rest.foldl insert_country tmp = tmp ++ rest := by
  induction rest with
  | nil => intro tmp _; simp
  | cons c rest ih =>
    intro tmp h
    have hc : ∀ x ∈ tmp, x.area > c.area := by
      intro x hx
      exact (List.pairwise_append.mp h).2.2 x hx c (List.mem_cons_self c rest)
    simp only [List.foldl_cons]
    rw [insert_country_of_all_gt tmp c hc, ih (tmp ++ [c]) (by simpa using h)]
    simp

theorem pairwise_getElem? {R : Country → Country → Prop} :
    ∀ (l : List Country) (i j : Nat) (a b : Country), List.Pairwise R l → i < j →
      l[i]? = some a → l[j]? = some b → R a b := by
  intro l
  induction l with
  | nil => intro i j a b _ _ ha _; simp at ha
  | cons x xs ih =>
    intro i j a b hp hij ha hb
    rw [List.pairwise_cons] at hp
    cases j with
    | zero => omega
    | succ j =>
      simp only [List.getElem?_cons_succ] at hb
      cases i with
      | zero =>
        simp only [List.getElem?_cons_zero, Option.some.injEq] at ha
        subst ha
        exact hp.1 b (List.getElem?_mem hb)
      | succ i =>
        simp only [List.getElem?_cons_succ] at ha
        exact ih i j a b hp.2 (by omega) ha hb

theorem inner_loop_of_nonincreasing (i : Nat) (countries : List Country)
    (hs : List.Pairwise (fun a b : Country => a.residents ≥ b.residents) countries)
    (hi : i - 1 < countries.length) :
    ∀ (remaining j : Nat), i ≤ j → 1 ≤ i → j + remaining ≤ countries.length →
      inner_loop i remaining j countries = some countries := by
  intro remaining
  induction remaining with
  | zero => intro j _ _ _; rfl
  | succ remaining ih =>
    intro j hij h1 hj
    have hj1 : j < countries.length := by omega
    have hge : countries[i - 1].residents ≥ countries[j].residents :=
      pairwise_getElem? countries (i - 1) j _ _ hs (by omega)
        (List.getElem?_eq_getElem hi) (List.getElem?_eq_getElem hj1)
    simp only [inner_loop, List.getElem?_eq_getElem hi, List.getElem?_eq_getElem hj1,
      not_lt.mpr hge, if_false]
    exact ih (j + 1) (by omega) h1 (by omega)

theorem outer_loop_of_nonincreasing (bound : Nat) (countries : List Country)
    (hs : List.Pairwise (fun a b : Country => a.residents ≥ b.residents) countries)
    (hb : bound ≤ countries.length) :
    ∀ (remaining i : Nat), 1 ≤ i → (remaining = 0 ∨ i + remaining ≤ bound) →
      outer_loop bound remaining i countries = some countries := by
  intro remaining
  induction remaining with
  | zero => intro i _ _; rfl
  | succ remaining ih =>
    intro i hi hr
    have hr1 : i + (remaining + 1) ≤ bound := by
      rcases hr with h | h
      · omega
      · exact h
    have hi1 : i - 1 < countries.length := by omega
    simp only [outer_loop, List.getElem?_eq_getElem hi1,
      inner_loop_of_nonincreasing i countries hs hi1 (bound - i) i (le_refl i) hi (by omega)]
    exact ih (i + 1) (by omega) (Or.inr (by omega))

theorem reorder_of_nonincreasing (bound : Nat) (countries : List Country)
    (hs : List.Pairwise (fun a b : Country => a.residents ≥ b.residents) countries)
    (hb : bound ≤ countries.length) : reorder bound countries = some countries := by
  unfold reorder
  exact outer_loop_of_nonincreasing bound countries hs hb (bound - 1) 1 (le_refl 1) (by omega)

/-! ### The claims, continued (C21 - C30) -/

/-- C21: the strong-typed `test` computes what the plain `test` computes, in
`StrongType_Assembly.cpp` and in `Meter_Assembly.cpp`: for every `m`,
`test( Meter{ m } ).get()` and `test( m )` have the same outcome, and when `m + 7` is
representable in `int` both are `m + 7`. -/
theorem C21_test_strong_equals_plain (m : Int) :
    (Assembly.test_Meter (Assembly.StrongType.ctor m)).map Assembly.StrongType.get
      = Assembly.test_int m ∧
    (Meter_Assembly.test_Meter (Meter_Assembly.Meter.ctor m)).map Meter_Assembly.Meter.get
      = Meter_Assembly.test_int m ∧
    (representable 32 (m + 7) →
      Assembly.test_int m = .ok (m + 7) ∧
      (Assembly.test_Meter (Assembly.StrongType.ctor m)).map Assembly.StrongType.get
        = .ok (m + 7) ∧
      Meter_Assembly.test_int m = .ok (m + 7) ∧
      (Meter_Assembly.test_Meter (Meter_Assembly.Meter.ctor m)).map Meter_Assembly.Meter.get
        = .ok (m + 7)) := by
  have h1 : (Assembly.test_Meter (Assembly.StrongType.ctor m)).map Assembly.StrongType.get
      = Assembly.test_int m := by
    by_cases hr : representable 32 (m + 7) <;>
      simp [Assembly.test_Meter, Assembly.test_int, T_add, Assembly.StrongType.ctor,
        Assembly.StrongType.get, Except.map, hr]
  have h2 : (Meter_Assembly.test_Meter (Meter_Assembly.Meter.ctor m)).map
      Meter_Assembly.Meter.get = Meter_Assembly.test_int m := by
    by_cases hr : representable 32 (m + 7) <;>
      simp [Meter_Assembly.test_Meter, Meter_Assembly.test_int, T_add,
        Meter_Assembly.Meter.ctor, Meter_Assembly.Meter.get, Except.map, hr]
  refine ⟨h1, h2, fun h => ?_⟩
  have h3 : Assembly.test_int m = .ok (m + 7) := by
    simp [Assembly.test_int, T_add, h]
  have h4 : Meter_Assembly.test_int m = .ok (m + 7) := by
    simp [Meter_Assembly.test_int, T_add, h]
  exact ⟨h3, h1.trans h3, h4, h2.trans h4⟩

/-- Witness of C21: `m = 35` gives `42` in all four functions. -/
theorem C21_test_strong_equals_plain_witness :
    representable 32 (35 + 7) ∧
    Assembly.test_int 35 = .ok (35 + 7) ∧
    (Assembly.test_Meter (Assembly.StrongType.ctor 35)).map Assembly.StrongType.get
      = .ok (35 + 7) ∧
    Meter_Assembly.test_int 35 = .ok (35 + 7) ∧
    (Meter_Assembly.test_Meter (Meter_Assembly.Meter.ctor 35)).map Meter_Assembly.Meter.get
      = .ok (35 + 7) :=
  ⟨by decide, (C21_test_strong_equals_plain 35).2.2 (by decide)⟩

/-- C25: for every input of `extract_five_largest_countries` whose flattened country list has
at most 5 entries, is strictly decreasing in area and non-increasing in residents, the
function returns that flattened list. -/
theorem C25_extract_returns_sorted_input (continents : List Continent)
    (hlen : (all_countries continents).length ≤ 5)
    (harea : List.Pairwise (fun a b : Country => a.area > b.area) (all_countries continents))
    (hres : List.Pairwise (fun a b : Country => a.residents ≥ b.residents)
      (all_countries continents)) :
    Ranges.extract_five_largest_countries continents = some (all_countries continents) := by
  have htmp : insertion_phase continents = all_countries continents := by
    rw [insertion_phase_eq]
    simpa using foldl_insert_country_of_decreasing (all_countries continents) [] (by simpa)
  have hmin : min (all_countries continents).length 5 = (all_countries continents).length :=
    Nat.min_eq_left hlen
  simp only [Ranges.extract_five_largest_countries, htmp, hmin, copy_range, le_refl, if_true,
    List.take_length]
  exact reorder_of_nonincreasing _ _ hres (le_refl _)

/-- Witness of C25: the four `static_assert`s of `main` in `Ranges_constexpr.cpp`: the empty
input, `[Brasil]`, `[Brasil, Argentina]`, and `[Brasil]` and `[France]` in two continents. -/
theorem C25_extract_returns_sorted_input_witness :
    Ranges.extract_five_largest_countries [] = some [] ∧
    Ranges.extract_five_largest_countries
        [⟨"South America", [⟨"Brasil", "Brasilia", 8515877, 208.4⟩]⟩]
      = some [⟨"Brasil", "Brasilia", 8515877, 208.4⟩] ∧
    Ranges.extract_five_largest_countries
        [⟨"South America", [⟨"Brasil", "Brasilia", 8515877, 208.4⟩,
          ⟨"Argentina", "Buenos Aires", 2780400, 44.7⟩]⟩]
      = some [⟨"Brasil", "Brasilia", 8515877, 208.4⟩,
          ⟨"Argentina", "Buenos Aires", 2780400, 44.7⟩] ∧
    Ranges.extract_five_largest_countries
        [⟨"South America", [⟨"Brasil", "Brasilia", 8515877, 208.4⟩]⟩,
          ⟨"Europe", [⟨"France", "Paris", 543965, 67.0⟩]⟩]
      = some [⟨"Brasil", "Brasilia", 8515877, 208.4⟩, ⟨"France", "Paris", 543965, 67.0⟩] :=
  ⟨C25_extract_returns_sorted_input [] (by decide) (by decide) (by simp [all_countries]),
   C25_extract_returns_sorted_input
     [⟨"South America", [⟨"Brasil", "Brasilia", 8515877, 208.4⟩]⟩]
     (by decide) (by decide) (by simp [all_countries]),
   C25_extract_returns_sorted_input
     [⟨"South America", [⟨"Brasil", "Brasilia", 8515877, 208.4⟩,
       ⟨"Argentina", "Buenos Aires", 2780400, 44.7⟩]⟩]
     (by decide) (by decide) (by norm_num [all_countries]),
   C25_extract_returns_sorted_input
     [⟨"South America", [⟨"Brasil", "Brasilia", 8515877, 208.4⟩]⟩,
       ⟨"Europe", [⟨"France", "Paris", 543965, 67.0⟩]⟩]
     (by decide) (by decide) (by norm_num [all_countries])⟩

/-- C26: for every list of continents with `n` countries in total,
`extract_five_largest_countries` performs no access outside the bounds of a vector (it
returns a result) and the result has exactly `min n 5` countries; the empty input gives the
empty result. -/
theorem C26_extract_in_bounds (continents : List Continent) :
    (∃ out, Ranges.extract_five_largest_countries continents = some out ∧
      out.length = min (all_countries continents).length 5) ∧
    Ranges.extract_five_largest_countries [] = some [] := by
  refine ⟨?_, rfl⟩
  have hlen := length_insertion_phase continents
  have hle : min (insertion_phase continents).length 5 ≤ (insertion_phase continents).length :=
    Nat.min_le_left _ _
  have htake : ((insertion_phase continents).take
      (min (insertion_phase continents).length 5)).length
        = min (insertion_phase continents).length 5 := by
    rw [List.length_take]
    omega
  obtain ⟨out, hout, houtlen⟩ := reorder_in_bounds (min (insertion_phase continents).length 5)
    ((insertion_phase continents).take (min (insertion_phase continents).length 5))
    (by rw [htake])
  refine ⟨out, ?_, by rw [houtlen, htake, hlen]⟩
  simp only [Ranges.extract_five_largest_countries, copy_range, hle, if_true]
  exact hout

/-- C27: `print_countries` of `Tasks/2_Safe_Cpp/AddressSanitizer.cpp` accesses a vector
outside its bounds on its data: after the insertion phase `tmp` holds exactly 4 countries
(China, Brasil, Indonesia, Bolivia), so the copy of the range `[begin(tmp), begin(tmp)+5)`
ends behind `end(tmp)` and the function has no defined result; and the loop nest with the
bound `5U`, run on the 4 countries of `tmp`, also indexes behind the end. -/
theorem C27_print_countries_out_of_bounds :
    (insertion_phase AddressSanitizer.continents).length = 4 ∧
    (insertion_phase AddressSanitizer.continents).map Country.name
      = ["China", "Brasil", "Indonesia", "Bolivia"] ∧
    copy_range (insertion_phase AddressSanitizer.continents) 5 = none ∧
    AddressSanitizer.print_countries = none ∧
    reorder 5 (insertion_phase AddressSanitizer.continents) = none := by
  refine ⟨by decide, by decide, by decide, by decide, ?_⟩
  norm_num [reorder, outer_loop, inner_loop, insertion_phase, insert_country, find_pos,
    AddressSanitizer.continents]

/-- C28 (evaluation of the code): `std::erase_if( v, is_odd_number() )` on `v = { 1, 2, -3 }`
leaves `{ 2, -3 }`: the odd element `-3` is not removed, because `-3 % 2` is `-1`; on
`{ 1, ..., 12 }` it leaves the even elements. -/
theorem C28_erase_if_keeps_negative_odd :
    Erase.erase_if [1, 2, -3] Erase.is_odd_number = [2, -3] ∧
    Int.tmod (-3) 2 = -1 ∧
    Erase.erase_if [1, 2, 3, 4, 5, 6, 7, 8, 9, 10, 11, 12] Erase.is_odd_number
      = [2, 4, 6, 8, 10, 12] := by
  decide

/-- C29 (evaluation of the code): the constructor `unique_ptr() {}` leaves `ptr_`
indeterminate, so `get()` of a default-constructed `unique_ptr<int>` has no defined value; it
is not the null pointer. -/
theorem C29_default_unique_ptr_is_indeterminate :
    UniquePtr.unique_ptr.default.ptr_ = .indeterminate ∧
    UniquePtr.unique_ptr.default.get = none ∧
    UniquePtr.unique_ptr.default.get ≠ some .nullptr := by
  decide

/-- C30: for every address `a` of an object holding `v` (a non-null pointer `p`),
`unique_ptr<T>{ p }.get() == p`, which is not null, and `*unique_ptr<T>{ p } == v`; a
`unique_ptr` move-constructed from it also has `get() == p` and dereferences to `v`. -/
theorem C30_unique_ptr_get_deref (heap : UniquePtr.Heap) (a : Nat) (v : Int)
    (h : heap a = some v) :
    (UniquePtr.unique_ptr.ctor (.address a)).get = some (.address a) ∧
    UniquePtr.Pointer.address a ≠ .nullptr ∧
    (UniquePtr.unique_ptr.ctor (.address a)).deref heap = some v ∧
    (UniquePtr.unique_ptr.moveCtor (UniquePtr.unique_ptr.ctor (.address a))).get
      = some (.address a) ∧
    (UniquePtr.unique_ptr.moveCtor (UniquePtr.unique_ptr.ctor (.address a))).deref heap
      = some v :=
  ⟨rfl, UniquePtr.Pointer.noConfusion, h, rfl, h⟩

/-- Witness of C30: a heap with the `int` `42` at address `7` (`new int(42)`). -/
theorem C30_unique_ptr_get_deref_witness :
    (UniquePtr.unique_ptr.ctor (.address 7)).deref (fun x => if x = 7 then some 42 else none)
      = some 42 ∧
    (UniquePtr.unique_ptr.moveCtor (UniquePtr.unique_ptr.ctor (.address 7))).get
      = some (.address 7) ∧
    (UniquePtr.unique_ptr.moveCtor (UniquePtr.unique_ptr.ctor (.address 7))).deref
      (fun x => if x = 7 then some 42 else none) = some 42 :=
  ⟨(C30_unique_ptr_get_deref (fun x => if x = 7 then some 42 else none) 7 42 rfl).2.2.1,
   (C30_unique_ptr_get_deref (fun x => if x = 7 then some 42 else none) 7 42 rfl).2.2.2⟩

/-! ### Shared lemmas on the insertion phase and on the loop nest -/

theorem insert_country_cons (c : Country) (rest : List Country) (x : Country) :
    insert_country (c :: rest) x =
      if c.area > x.area then c :: insert_country rest x else x :: c :: rest := by
  by_cases h : c.area > x.area <;> simp [insert_country, find_pos, h]

theorem insert_country_perm (tmp : List Country) (x : Country) :
    List.Perm (insert_country tmp x) (x :: tmp) := by
  unfold insert_country
  have h := @List.perm_middle _ x (tmp.take (find_pos tmp x)) (tmp.drop (find_pos tmp x))
  rwa [List.take_append_drop] at h

theorem insert_country_sorted (tmp : List Country) (x : Country)
    (hs : List.Pairwise (fun a b : Country => a.area ≥ b.area) tmp) :
    List.Pairwise (fun a b : Country => a.area ≥ b.area) (insert_country tmp x) := by
  induction tmp with
  | nil => simp [insert_country, find_pos]
  | cons c rest ih =>
    rw [List.pairwise_cons] at hs
    rw [insert_country_cons]
    split
    · rename_i hc
      rw [List.pairwise_cons]
      refine ⟨?_, ih hs.2⟩
      intro y hy
      rcases List.mem_cons.mp ((insert_country_perm rest x).subset hy) with h | h
      · rw [h]
        exact Nat.le_of_lt hc
      · exact hs.1 y h
    · rename_i hc
      have hxc : x.area ≥ c.area := Nat.le_of_not_lt hc
      rw [List.pairwise_cons, List.pairwise_cons]
      refine ⟨?_, hs⟩
      intro y hy
      rcases List.mem_cons.mp hy with h | h
      · rw [h]
        exact hxc
      · exact Nat.le_trans (hs.1 y h) hxc

theorem foldl_insert_country_perm (cs : List Country) :
    ∀ tmp : List Country, List.Perm (cs.foldl insert_country tmp) (tmp ++ cs) := by
  induction cs with
  | nil => intro tmp; simp
  | cons c rest ih =>
    intro tmp
    simp only [List.foldl_cons]
    refine (ih (insert_country tmp c)).trans ?_
    refine ((insert_country_perm tmp c).append_right rest).trans ?_
    simpa using (@List.perm_middle _ c tmp rest).symm

theorem foldl_insert_country_sorted (cs : List Country) :
    ∀ tmp : List Country, List.Pairwise (fun a b : Country => a.area ≥ b.area) tmp →
      List.Pairwise (fun a b : Country => a.area ≥ b.area) (cs.foldl insert_country tmp) := by
  induction cs with
  | nil => intro tmp h; simpa using h
  | cons c rest ih =>
    intro tmp h
    simp only [List.foldl_cons]
    exact ih _ (insert_country_sorted tmp c h)

theorem insertion_phase_perm (continents : List Continent) :
    List.Perm (insertion_phase continents) (all_countries continents) := by
  rw [insertion_phase_eq]
  simpa using foldl_insert_country_perm (all_countries continents) []

theorem insertion_phase_sorted (continents : List Continent) :
    List.Pairwise (fun a b : Country => a.area ≥ b.area) (insertion_phase continents) := by
  rw [insertion_phase_eq]
  exact foldl_insert_country_sorted (all_countries continents) [] List.Pairwise.nil

theorem length_sweep (post : List Country) :
    ∀ x : Country, (sweep x post).2.length = post.length := by
  induction post with
  | nil => intro x; rfl
  | cons y ys ih =>
    intro x
    simp only [sweep]
    split <;> simp [ih]

theorem sweep_perm (post : List Country) :
    ∀ x : Country, List.Perm ((sweep x post).1 :: (sweep x post).2) (x :: post) := by
  induction post with
  | nil => intro x; exact List.Perm.refl _
  | cons y ys ih =>
    intro x
    simp only [sweep]
    split
    · exact (List.Perm.swap x (sweep y ys).1 (sweep y ys).2).trans
        (((ih y).cons x).trans (List.Perm.refl _))
    · exact (List.Perm.swap y (sweep x ys).1 (sweep x ys).2).trans
        (((ih x).cons y).trans (List.Perm.swap x y ys))

theorem sweep_fst_ge (post : List Country) :
    ∀ x : Country, (sweep x post).1.residents ≥ x.residents ∧
      ∀ c ∈ (sweep x post).2, (sweep x post).1.residents ≥ c.residents := by
  induction post with
  | nil =>
    intro x
    exact ⟨le_refl _, fun c hc => by cases hc⟩
  | cons y ys ih =>
    intro x
    simp only [sweep]
    split
    · rename_i hxy
      refine ⟨le_trans (le_of_lt hxy) (ih y).1, ?_⟩
      intro c hc
      rcases List.mem_cons.mp hc with h | h
      · rw [h]
        exact le_trans (le_of_lt hxy) (ih y).1
      · exact (ih y).2 c h
    · rename_i hxy
      refine ⟨(ih x).1, ?_⟩
      intro c hc
      rcases List.mem_cons.mp hc with h | h
      · rw [h]
        exact le_trans (not_lt.mp hxy) (ih x).1
      · exact (ih x).2 c h

theorem sweep_passes_perm (passes : Nat) :
    ∀ countries : List Country, List.Perm (sweep_passes passes countries) countries := by
  induction passes with
  | zero => intro countries; exact List.Perm.refl _
  | succ passes ih =>
    intro countries
    cases countries with
    | nil => exact List.Perm.refl _
    | cons x post =>
      simp only [sweep_passes]
      exact ((ih (sweep x post).2).cons _).trans (sweep_perm post x)

theorem sweep_passes_sorted (passes : Nat) :
    ∀ countries : List Country, countries.length ≤ passes + 1 →
      List.Pairwise (fun a b : Country => a.residents ≥ b.residents)
        (sweep_passes passes countries) := by
  induction passes with
  | zero =>
    intro countries h
    cases countries with
    | nil => exact List.Pairwise.nil
    | cons x post =>
      cases post with
      | nil => simp [sweep_passes]
      | cons y ys => simp at h
  | succ passes ih =>
    intro countries h
    cases countries with
    | nil => exact List.Pairwise.nil
    | cons x post =>
      simp only [sweep_passes, List.pairwise_cons]
      refine ⟨?_, ih _ (by rw [length_sweep]; simpa using h)⟩
      intro c hc
      exact (sweep_fst_ge post x).2 c ((sweep_passes_perm passes _).subset hc)

theorem getElem?_append_cons (pre : List Country) (x : Country) (t : List Country) (k : Nat)
    (hk : k = pre.length) : (pre ++ x :: t)[k]? = some x := by
  subst hk
  induction pre with
  | nil => simp
  | cons p pre ih => simpa using ih

theorem set_append_cons (pre : List Country) (x y : Country) (t : List Country) (k : Nat)
    (hk : k = pre.length) : (pre ++ x :: t).set k y = pre ++ y :: t := by
  subst hk
  induction pre with
  | nil => rfl
  | cons p pre ih => simp

theorem inner_loop_eq_sweep (pre post : List Country) :
    ∀ (x : Country) (mid : List Country),
      inner_loop (pre.length + 1) post.length (pre.length + 1 + mid.length)
          (pre ++ x :: (mid ++ post))
        = some (pre ++ (sweep x post).1 :: (mid ++ (sweep x post).2)) := by
  induction post with
  | nil => intro x mid; rfl
  | cons y ys ih =>
    intro x mid
    have h1 : (pre ++ x :: (mid ++ y :: ys))[pre.length + 1 - 1]? = some x :=
      getElem?_append_cons pre x _ _ (by omega)
    have hsplit : pre ++ x :: (mid ++ y :: ys) = (pre ++ x :: mid) ++ y :: ys := by simp
    have h2 : (pre ++ x :: (mid ++ y :: ys))[pre.length + 1 + mid.length]? = some y := by
      rw [hsplit]
      exact getElem?_append_cons (pre ++ x :: mid) y ys _ (by simp; omega)
    simp only [List.length_cons, inner_loop, h1, h2, sweep]
    split
    · have hset : ((pre ++ x :: (mid ++ y :: ys)).set (pre.length + 1 - 1) y).set
          (pre.length + 1 + mid.length) x = pre ++ y :: ((mid ++ [x]) ++ ys) := by
        rw [set_append_cons pre x y _ _ (by omega)]
        have hsplit2 : pre ++ y :: (mid ++ y :: ys) = (pre ++ y :: mid) ++ y :: ys := by simp
        rw [hsplit2, set_append_cons (pre ++ y :: mid) y x ys _ (by simp; omega)]
        simp
      rw [hset]
      have hih := ih y (mid ++ [x])
      simp only [List.length_append, List.length_singleton] at hih
      rw [← Nat.add_assoc] at hih
      rw [hih]
      simp
    · have hmid : pre ++ x :: (mid ++ y :: ys) = pre ++ x :: ((mid ++ [y]) ++ ys) := by simp
      rw [hmid]
      have hih := ih x (mid ++ [y])
      simp only [List.length_append, List.length_singleton] at hih
      rw [← Nat.add_assoc] at hih
      rw [hih]
      simp

theorem outer_loop_eq_sweep_passes (bound : Nat) :
    ∀ (remaining : Nat) (pre rest : List Country), bound = pre.length + rest.length →
      (remaining = 0 ∨ remaining + 1 ≤ rest.length) →
      outer_loop bound remaining (pre.length + 1) (pre ++ rest)
        = some (pre ++ sweep_passes remaining rest) := by
  intro remaining
  induction remaining with
  | zero => intro pre rest _ _; rfl
  | succ remaining ih =>
    intro pre rest hb hr
    have hlen : remaining + 1 + 1 ≤ rest.length := by
      rcases hr with h | h
      · omega
      · exact h
    cases rest with
    | nil => simp at hlen
    | cons x post =>
      have hb2 : bound = pre.length + (post.length + 1) := by
        simpa only [List.length_cons] using hb
      have hlen2 : remaining + 1 ≤ post.length := by
        simp only [List.length_cons] at hlen
        omega
      have h1 : (pre ++ x :: post)[pre.length + 1 - 1]? = some x :=
        getElem?_append_cons pre x post _ (by omega)
      have hinner : inner_loop (pre.length + 1) (bound - (pre.length + 1)) (pre.length + 1)
          (pre ++ x :: post) = some (pre ++ (sweep x post).1 :: (sweep x post).2) := by
        have h := inner_loop_eq_sweep pre post x []
        simp only [List.length_nil, Nat.add_zero, List.nil_append] at h
        have hcount : bound - (pre.length + 1) = post.length := by omega
        rw [hcount]
        exact h
      simp only [outer_loop, h1, hinner, sweep_passes]
      have hlen3 : (pre ++ [(sweep x post).1]).length = pre.length + 1 := by simp
      have hih := ih (pre ++ [(sweep x post).1]) (sweep x post).2
        (by rw [hlen3, length_sweep]; omega)
        (Or.inr (by rw [length_sweep]; exact hlen2))
      rw [hlen3] at hih
      simp only [List.append_assoc, List.singleton_append] at hih
      exact hih

theorem reorder_eq_sweep_passes (countries : List Country) :
    reorder countries.length countries
      = some (sweep_passes (countries.length - 1) countries) := by
  have h := outer_loop_eq_sweep_passes countries.length (countries.length - 1) [] countries
    (by simp) (by omega)
  simpa [reorder] using h

/-! ### Shared lemmas on `from_chars` -/

theorem takeWhile_isDigit_append (digits rest : List Char)
    (hd : ∀ c ∈ digits, c.isDigit = true)
    (hr : ∀ c, rest.head? = some c → c.isDigit = false) :
    (digits ++ rest).takeWhile Char.isDigit = digits := by
  induction digits with
  | nil =>
    cases rest with
    | nil => rfl
    | cons r rs => simp [List.takeWhile, hr r rfl]
  | cons d ds ih =>
    have h1 : d.isDigit = true := hd d (List.mem_cons_self d ds)
    have h2 := ih (fun c hc => hd c (List.mem_cons_of_mem d hc))
    simp only [List.cons_append, List.takeWhile_cons, h1, if_true, h2]

theorem from_chars_of_digits (digits rest : List Char) (value : Int) (hne : digits ≠ [])
    (hd : ∀ c ∈ digits, c.isDigit = true)
    (hr : ∀ c, rest.head? = some c → c.isDigit = false) :
    ToInt.from_chars (digits ++ rest) value =
      if representable 32 (ToInt.decimal_value digits : Int)
      then (⟨digits.length, .success⟩, (ToInt.decimal_value digits : Int))
      else (⟨digits.length, .result_out_of_range⟩, value) := by
  cases digits with
  | nil => exact absurd rfl hne
  | cons d ds =>
    have h1 : d.isDigit = true := hd d (List.mem_cons_self d ds)
    have hminus : ¬ (d = '-') := by
      intro h
      rw [h] at h1
      exact absurd h1 (by decide)
    have htw := takeWhile_isDigit_append (d :: ds) rest hd hr
    simp only [List.cons_append] at htw
    simp [ToInt.from_chars, hminus, htw]

theorem from_chars_of_minus_digits (digits rest : List Char) (value : Int) (hne : digits ≠ [])
    (hd : ∀ c ∈ digits, c.isDigit = true)
    (hr : ∀ c, rest.head? = some c → c.isDigit = false) :
    ToInt.from_chars ('-' :: (digits ++ rest)) value =
      if representable 32 (-(ToInt.decimal_value digits : Int))
      then (⟨1 + digits.length, .success⟩, -(ToInt.decimal_value digits : Int))
      else (⟨1 + digits.length, .result_out_of_range⟩, value) := by
  have htw := takeWhile_isDigit_append digits rest hd hr
  simp [ToInt.from_chars, htw, hne]

theorem from_chars_of_no_integer (sv : List Char) (value : Int)
    (h : ¬ ToInt.starts_with_integer sv) :
    ToInt.from_chars sv value = (⟨0, .invalid_argument⟩, value) := by
  cases sv with
  | nil => simp [ToInt.from_chars]
  | cons c rest =>
    by_cases hc : c = '-'
    · subst hc
      cases rest with
      | nil => simp [ToInt.from_chars]
      | cons d r =>
        have hd : d.isDigit = false := by
          cases hdig : d.isDigit with
          | false => rfl
          | true => exact absurd ⟨d, r, hdig, Or.inr rfl⟩ h
        simp [ToInt.from_chars, List.takeWhile, hd]
    · have hd : c.isDigit = false := by
        cases hdig : c.isDigit with
        | false => rfl
        | true => exact absurd ⟨c, rest, hdig, Or.inl rfl⟩ h
      simp [ToInt.from_chars, List.takeWhile, hd, hc]

theorem from_chars_snd_representable (chars : List Char) (value : Int)
    (hv : representable 32 value) : representable 32 (ToInt.from_chars chars value).2 := by
  unfold ToInt.from_chars
  simp only []
  split_ifs <;> simp only [] <;> first | exact hv | assumption

theorem is_odd_iff_positive_odd (i : Int) : Erase.is_odd i = true ↔ (0 < i ∧ Odd i) := by
  rw [Int.odd_iff]
  cases i with
  | ofNat n =>
    have h : Int.tmod (Int.ofNat n) 2 = ((n % 2 : Nat) : Int) := rfl
    simp only [Erase.is_odd, decide_eq_true_eq]
    rw [h]
    simp only [Int.ofNat_eq_coe]
    omega
  | negSucc n =>
    have h : Int.tmod (Int.negSucc n) 2 = -(((n + 1) % 2 : Nat) : Int) := rfl
    simp only [Erase.is_odd, decide_eq_true_eq]
    rw [h]
    have hneg : ¬ (0 < Int.negSucc n) := by
      have := Int.negSucc_lt_zero n
      omega
    constructor
    · intro h1
      omega
    · intro h1
      exact absurd h1.1 hneg

theorem extract_eq_sweep_passes (continents : List Continent) :
    Ranges.extract_five_largest_countries continents =
      some (sweep_passes (min (insertion_phase continents).length 5 - 1)
        ((insertion_phase continents).take (min (insertion_phase continents).length 5))) := by
  have hle : min (insertion_phase continents).length 5 ≤ (insertion_phase continents).length :=
    Nat.min_le_left _ _
  have htake : ((insertion_phase continents).take
      (min (insertion_phase continents).length 5)).length
        = min (insertion_phase continents).length 5 := by
    rw [List.length_take]
    omega
  have h := reorder_eq_sweep_passes
    ((insertion_phase continents).take (min (insertion_phase continents).length 5))
  rw [htake] at h
  simp only [Ranges.extract_five_largest_countries, copy_range, hle, if_true]
  exact h

/-! ### The claims, continued (C31 - C35) -/

/-- C31: `to_int` (`ToInt.cpp`, solution 1) always returns a value of `int`, and returns `0`
on error: for every string that does not start with a decimal integer (an optional minus
sign followed by at least one digit) it returns `0`; for a string that starts with the digits
`digits` (or a minus sign and `digits`), not followed by a further digit, it returns `0` when
the number is outside the range of `int` and the number otherwise. -/
theorem C31_to_int_zero_on_error :
    (∀ sv : List Char, representable 32 (ToInt.to_int sv)) ∧
    (∀ sv : List Char, ¬ ToInt.starts_with_integer sv → ToInt.to_int sv = 0) ∧
    (∀ digits rest : List Char, digits ≠ [] → (∀ c ∈ digits, c.isDigit = true) →
      (∀ c, rest.head? = some c → c.isDigit = false) →
      (¬ representable 32 (ToInt.decimal_value digits : Int) →
        ToInt.to_int (digits ++ rest) = 0) ∧
      (representable 32 (ToInt.decimal_value digits : Int) →
        ToInt.to_int (digits ++ rest) = (ToInt.decimal_value digits : Int)) ∧
      (¬ representable 32 (-(ToInt.decimal_value digits : Int)) →
        ToInt.to_int ('-' :: (digits ++ rest)) = 0) ∧
      (representable 32 (-(ToInt.decimal_value digits : Int)) →
        ToInt.to_int ('-' :: (digits ++ rest)) = -(ToInt.decimal_value digits : Int))) := by
  refine ⟨?_, ?_, ?_⟩
  · intro sv
    exact from_chars_snd_representable sv 0 (by decide)
  · intro sv h
    unfold ToInt.to_int
    rw [from_chars_of_no_integer sv 0 h]
  · intro digits rest hne hd hr
    unfold ToInt.to_int
    rw [from_chars_of_digits digits rest 0 hne hd hr,
      from_chars_of_minus_digits digits rest 0 hne hd hr]
    refine ⟨fun h => ?_, fun h => ?_, fun h => ?_, fun h => ?_⟩
    · rw [if_neg h]
    · rw [if_pos h]
    · rw [if_neg h]
    · rw [if_pos h]

/-- Witness of C31: the strings of `main`: `to_int("a") == 0` and `to_int(" 3") == 0` (no
leading integer), `to_int("1") == 1` and `to_int("-2") == -2`; and `to_int("2147483648") == 0`
(outside the range of `int`). -/
theorem C31_to_int_zero_on_error_witness :
    ToInt.to_int "a".toList = 0 ∧
    ToInt.to_int " 3".toList = 0 ∧
    ToInt.to_int "1".toList = 1 ∧
    ToInt.to_int "-2".toList = -2 ∧
    ToInt.to_int "2147483648".toList = 0 := by
  have hdigit : ∀ c : Char, ([] : List Char).head? = some c → c.isDigit = false :=
    fun c hc => by cases hc
  refine ⟨C31_to_int_zero_on_error.2.1 "a".toList ?_,
    C31_to_int_zero_on_error.2.1 " 3".toList ?_,
    (C31_to_int_zero_on_error.2.2 "1".toList [] (by decide) (by decide) hdigit).2.1
      (by decide),
    (C31_to_int_zero_on_error.2.2 "2".toList [] (by decide) (by decide) hdigit).2.2.2
      (by decide),
    (C31_to_int_zero_on_error.2.2 "2147483648".toList [] (by decide) (by decide) hdigit).1
      (by decide)⟩
  · rintro ⟨d, rest, hd, h | h⟩
    · cases h
      exact absurd hd (by decide)
    · cases h
  · rintro ⟨d, rest, hd, h | h⟩
    · cases h
      exact absurd hd (by decide)
    · cases h

/-- C32: for every input, `extract_five_largest_countries` returns a list `out` that is a
sub-multiset of the input countries: the input is a permutation of `out` followed by the
countries `rest` that are not returned; and every country that is not returned has an area
less than or equal to the area of every returned country. -/
theorem C32_extract_largest_area (continents : List Continent) :
    ∃ out rest, Ranges.extract_five_largest_countries continents = some out ∧
      List.Perm (all_countries continents) (out ++ rest) ∧
      List.Subperm out (all_countries continents) ∧
      ∀ r ∈ rest, ∀ c ∈ out, r.area ≤ c.area := by
  have hperm := sweep_passes_perm (min (insertion_phase continents).length 5 - 1)
    ((insertion_phase continents).take (min (insertion_phase continents).length 5))
  have hall : List.Perm (all_countries continents)
      (sweep_passes (min (insertion_phase continents).length 5 - 1)
          ((insertion_phase continents).take (min (insertion_phase continents).length 5))
        ++ (insertion_phase continents).drop (min (insertion_phase continents).length 5)) := by
    refine (insertion_phase_perm continents).symm.trans ?_
    have h := hperm.symm.append_right
      ((insertion_phase continents).drop (min (insertion_phase continents).length 5))
    rwa [List.take_append_drop] at h
  refine ⟨_, (insertion_phase continents).drop (min (insertion_phase continents).length 5),
    extract_eq_sweep_passes continents, hall, ?_, ?_⟩
  · exact (List.sublist_append_left _ _).subperm.trans hall.symm.subperm
  · intro r hr c hc
    have hsorted := insertion_phase_sorted continents
    rw [← List.take_append_drop (min (insertion_phase continents).length 5)
      (insertion_phase continents)] at hsorted
    exact (List.pairwise_append.mp hsorted).2.2 c (hperm.subset hc) r hr

/-- C33: for every input (residents ordered as numbers), the list returned by
`extract_five_largest_countries` is in non-increasing order of residents, and it is a
permutation of the first `min n 5` elements of the list `tmp` built by the insertion phase,
where `n` is the number of input countries; `tmp` is a permutation of the input in
non-increasing order of area. -/
theorem C33_extract_sorted_by_residents (continents : List Continent) :
    ∃ out, Ranges.extract_five_largest_countries continents = some out ∧
      List.Pairwise (fun a b : Country => a.residents ≥ b.residents) out ∧
      List.Perm out
        ((insertion_phase continents).take (min (all_countries continents).length 5)) ∧
      List.Pairwise (fun a b : Country => a.area ≥ b.area) (insertion_phase continents) ∧
      List.Perm (insertion_phase continents) (all_countries continents) := by
  refine ⟨_, extract_eq_sweep_passes continents, ?_, ?_, insertion_phase_sorted continents,
    insertion_phase_perm continents⟩
  · apply sweep_passes_sorted
    rw [List.length_take]
    omega
  · rw [← length_insertion_phase continents]
    exact sweep_passes_perm _ _

/-- C34 (evaluation of the code): `is_odd( -3 )` is `false` although `-3` is odd; the function
returns `true` exactly for the positive odd numbers. -/
theorem C34_is_odd_false_for_negative_odd :
    Erase.is_odd (-3) = false ∧ Odd (-3 : Int) ∧
    (∀ i : Int, Erase.is_odd i = true ↔ (0 < i ∧ Odd i)) :=
  ⟨by decide, ⟨-2, by decide⟩, is_odd_iff_positive_odd⟩

/-- C35 (evaluation of the code): on a `Meter<long>` holding `5`, the assignment `m = -3L` is
rejected by `StrongType_Cpp17.cpp` (the object still holds `5`) and accepted by
`StrongType_Cpp20.cpp` (the object holds `-3`); on a `Meter<long>` holding `-1`, `m = 5L` is
accepted by `StrongType_Cpp17.cpp` and rejected by `StrongType_Cpp20.cpp`. -/
theorem C35_assign_variants_differ :
    Cpp17.StrongType.assign (⟨5⟩ : StrongType Meter_long) (-3)
      = .threw negativeValueDetected ⟨5⟩ ∧
    Cpp20.StrongType.assign (⟨5⟩ : StrongType Meter_long) (-3) = .returned ⟨-3⟩ ∧
    Cpp17.StrongType.assign (⟨-1⟩ : StrongType Meter_long) 5 = .returned ⟨5⟩ ∧
    Cpp20.StrongType.assign (⟨-1⟩ : StrongType Meter_long) 5
      = .threw negativeValueDetected ⟨-1⟩ := by
  decide

end SafeCpp
